import Mathlib

/-!
# Subscriber-side conformance harness of `reliable_multicast`

A shallow embedding of `rmc_proto_test_sub.c` (the per-publisher expectation
table checked by `process_incoming_data` and `check_exit_condition`) and of
`rmc_sub_timeout.c` (the acknowledgement deadline computed by
`rmc_sub_timeout_get_next`), followed by theorems about them.

Conventions of the embedding.

* `uint64_t` and `uint32_t` values are natural numbers; the one place where
  the source computes on them (`max_received + 1`) reduces modulo `2^64`.
* `usec_timestamp_t` values are integers; sums and differences are reduced to
  the signed 64-bit range by `wrap64`.
* The array `expect` and its length `expect_sz` travel together as a list
  (the only caller passes `node_id_map_size` for both).
* `exit(255)` is a result of its own, `call_result.exited`, that carries the
  exit status and which of the diagnostics of the source was printed; the
  table as it stands when the process exits is kept in the outcome.
-/

namespace Rmc

/-! ## Machine integers -/

/-- The number of values of a `uint64_t`, `2^64`. -/
def UINT64_MOD : Nat := 18446744073709551616

/-- The number of values of an `unsigned int`, `2^32`. -/
def UINT32_MOD : Nat := 4294967296

/-! ## Expectation records (`sub_expect_t`) -/

/-- The anonymous `enum` of `sub_expect_t.status`. -/
inductive sub_status where
  | RMC_TEST_SUB_INACTIVE
  | RMC_TEST_SUB_NOT_STARTED
  | RMC_TEST_SUB_IN_PROGRESS
  | RMC_TEST_SUB_COMPLETED
  deriving DecidableEq, Repr

open sub_status

/-- One entry of the table indexed by publisher `node_id`. -/
structure sub_expect_t where
  status : sub_status
  max_expected : Nat
  max_received : Nat
  deriving DecidableEq, Repr

/-- The fields of `sub_packet_t` that the harness uses. -/
structure sub_packet_t where
  pid : Nat
  payload : List Char
  payload_len : Nat
  deriving DecidableEq, Repr

/-- The read `expect[ind]`.  Every read of the source is guarded by
`ind < expect_sz`; outside the array the model yields an inactive record. -/
def expect_at (expect : List sub_expect_t) (ind : Nat) : sub_expect_t :=
  expect.getD ind ⟨RMC_TEST_SUB_INACTIVE, 0, 0⟩

/-! ## `sscanf(pack->payload, "%u:%lu:%lu", ...)` -/

/-- The C library's `isspace` in the "C" locale. -/
def isspace (c : Char) : Bool :=
  c.toNat = 32 || (9 ≤ c.toNat && c.toNat ≤ 13)

/-- Input white space skipped in front of a conversion. -/
def skip_space : List Char → List Char
  | [] => []
  | c :: cs => if isspace c then skip_space cs else c :: cs

/-- The run of decimal digits at the head of the input, accumulated into
`acc`, and the input left after it. -/
def scan_digits : List Char → Nat → Nat × List Char
  | [], acc => (acc, [])
  | c :: cs, acc =>
    if c.isDigit then scan_digits cs (10 * acc + (c.toNat - 48)) else (acc, c :: cs)

/-- The digits of one conversion, after white space and sign: at least one
digit is needed; the value is converted as `strtoul` does (saturating at
`ULONG_MAX`, negated in `unsigned long` after a minus sign) and stored in an
object of `width_mod` values. -/
def scan_magnitude (width_mod : Nat) (neg : Bool) (s : List Char) :
    Option (Nat × List Char) :=
  match s with
  | [] => none
  | c :: cs =>
    if c.isDigit then
      let r := scan_digits (c :: cs) 0
      let u :=
        if UINT64_MOD ≤ r.1 then UINT64_MOD - 1
        else if neg then (UINT64_MOD - r.1) % UINT64_MOD
        else r.1
      some (u % width_mod, r.2)
    else none

/-- One `%u` (`width_mod = 2^32`) or `%lu` (`width_mod = 2^64`) conversion:
the value stored and the input left, or `none` when no number is there. -/
def scan_unsigned (width_mod : Nat) (s : List Char) : Option (Nat × List Char) :=
  match skip_space s with
  | [] => none
  | c :: cs =>
    if c = '-' then scan_magnitude width_mod true cs
    else if c = '+' then scan_magnitude width_mod false cs
    else scan_magnitude width_mod false (c :: cs)

/-- What `sscanf` leaves behind: its return value and the three output
variables (initialised to `0` by the caller and left so when not assigned). -/
structure scan_result where
  count : Int
  node_id : Nat
  current : Nat
  max_expected : Nat
  deriving DecidableEq, Repr

/-- The literal `:` of the format, followed by a `%lu` conversion. -/
def scan_colon_lu (s : List Char) : Option (Nat × List Char) :=
  match s with
  | [] => none
  | c :: cs => if c = ':' then scan_unsigned UINT64_MOD cs else none

/-- The call `sscanf(payload, "%u:%lu:%lu", &node_id, &current, &max_expected)`
on the characters of the payload up to its terminating NUL.  Input left after
the third conversion is ignored, as `sscanf` does. -/
def sscanf_u_lu_lu (payload : List Char) : scan_result :=
  match scan_unsigned UINT32_MOD payload with
  | none => ⟨if skip_space payload = [] then -1 else 0, 0, 0, 0⟩
  | some (node_id, r1) =>
    match scan_colon_lu r1 with
    | none => ⟨1, node_id, 0, 0⟩
    | some (current, r2) =>
      match scan_colon_lu r2 with
      | none => ⟨2, node_id, current, 0⟩
      | some (max_expected, _) => ⟨3, node_id, current, max_expected⟩

/-! ## `check_exit_condition` -/

/-- The loop `while(ind--) { ... }` of `check_exit_condition`, entered with
the value `ind`; the table is threaded through and handed back with the
value returned. -/
def check_exit_loop (expect : List sub_expect_t) : Nat → Int × List sub_expect_t
  | 0 => (1, expect)
  | ind + 1 =>
    if (expect_at expect ind).status = RMC_TEST_SUB_NOT_STARTED ∨
        (expect_at expect ind).status = RMC_TEST_SUB_IN_PROGRESS then
      (0, expect)
    else check_exit_loop expect ind

/-- The function `check_exit_condition(expect, expect_sz)`: the value
returned and the table after the call. -/
def check_exit_condition (expect : List sub_expect_t) (expect_sz : Nat) :
    Int × List sub_expect_t :=
  check_exit_loop expect expect_sz

/-! ## `process_incoming_data` -/

/-- The diagnostic printed before `exit(255)`, one per call site. -/
inductive fatal where
  /-- "Payload [%s] could not be scanned". -/
  | payload_not_scanned
  /-- "ContextID [%u] is out of range". -/
  | out_of_range
  /-- "ContextID [%u] not expected". -/
  | not_expected
  /-- "ContextID [%u] have already processed its [%lu] packets". -/
  | already_completed
  /-- "ContextID [%u] max_expected changed". -/
  | max_expected_changed
  /-- "ContextID [%u] Wanted[%lu] Got[%lu]". -/
  | not_consecutive
  /-- "Eh?". -/
  | eh
  deriving DecidableEq, Repr

/-- How a call ends: by `return value` or by `exit(status)`. -/
inductive call_result where
  | returned (value : Int)
  | exited (status : Nat) (msg : fatal)
  deriving DecidableEq, Repr

/-- The state a call of `process_incoming_data` leaves: the table, whether
`rmc_sub_packet_dispatched(ctx, pack)` was called, and how the call ended. -/
structure outcome where
  expect : List sub_expect_t
  dispatched : Bool
  result : call_result
  deriving DecidableEq, Repr

/-- The body of `process_incoming_data` after the payload was scanned and the
packet marked dispatched, on the scanned `node_id`, `current` and
`max_expected`. -/
def process_scanned (node_id current max_expected : Nat)
    (expect : List sub_expect_t) : outcome :=
  -- Is context ID within our expected range
  if expect.length ≤ node_id then
    ⟨expect, true, .exited 255 .out_of_range⟩
  -- Is this context expected?
  else if (expect_at expect node_id).status = RMC_TEST_SUB_INACTIVE then
    ⟨expect, true, .exited 255 .not_expected⟩
  -- Have we already completed all expected packages here?
  else if (expect_at expect node_id).status = RMC_TEST_SUB_COMPLETED then
    ⟨expect, true, .exited 255 .already_completed⟩
  else
    -- First packet from an expected source: set things up and fall through.
    let expect1 :=
      if (expect_at expect node_id).status = RMC_TEST_SUB_NOT_STARTED then
        expect.set node_id ⟨RMC_TEST_SUB_IN_PROGRESS, max_expected, 0⟩
      else expect
    if (expect_at expect1 node_id).status = RMC_TEST_SUB_IN_PROGRESS then
      -- Check that max_expected hasn't changed.
      if max_expected ≠ (expect_at expect1 node_id).max_expected then
        ⟨expect1, true, .exited 255 .max_expected_changed⟩
      -- Check that packet is consecutive.
      else if current ≠ ((expect_at expect1 node_id).max_received + 1) % UINT64_MOD then
        ⟨expect1, true, .exited 255 .not_consecutive⟩
      else
        let expect2 :=
          expect1.set node_id { expect_at expect1 node_id with max_received := current }
        -- Check if we are complete
        if current = max_expected then
          let expect3 :=
            expect2.set node_id
              { expect_at expect2 node_id with status := RMC_TEST_SUB_COMPLETED }
          -- Check if this is the last one out.
          let chk := check_exit_condition expect3 expect3.length
          if chk.1 ≠ 0 then ⟨chk.2, true, .returned 0⟩
          else ⟨chk.2, true, .returned 1⟩
        else ⟨expect2, true, .returned 1⟩
    else ⟨expect1, true, .exited 255 .eh⟩

/-- The function `process_incoming_data(ctx, pack, expect, expect_sz)` for a
non-null `pack`, with `expect_sz` the length of `expect`.  The context is only
handed on to `rmc_sub_packet_dispatched`, whose call is recorded in the
`dispatched` flag of the outcome. -/
def process_incoming_data (pack : sub_packet_t) (expect : List sub_expect_t) : outcome :=
  let sc := sscanf_u_lu_lu pack.payload
  if sc.count ≠ 3 then
    ⟨expect, false, .exited 255 .payload_not_scanned⟩
  else
    -- Will free payload
    process_scanned sc.node_id sc.current sc.max_expected expect

/-- The initialisation loop of `test_rmc_proto_sub` over `node_id_map`: every
record starts inactive with both counters `0`, and is marked not started when
its map entry is non-zero. -/
def init_expect (node_id_map : List Nat) : List sub_expect_t :=
  node_id_map.map fun m =>
    if m ≠ 0 then ⟨RMC_TEST_SUB_NOT_STARTED, 0, 0⟩ else ⟨RMC_TEST_SUB_INACTIVE, 0, 0⟩

/-- A packet carrying the given payload text. -/
def packet_of (pid : Nat) (payload : String) : sub_packet_t :=
  ⟨pid, payload.data, payload.length⟩

/-! ## `rmc_sub_timeout_get_next` -/

/-- The least value of a signed 64-bit `usec_timestamp_t`, negated: `2^63`. -/
def INT64_HALF : Int := 9223372036854775808

/-- Whether an integer is a value of a signed 64-bit `usec_timestamp_t`. -/
def in_int64 (x : Int) : Prop := -INT64_HALF ≤ x ∧ x < INT64_HALF

instance (x : Int) : Decidable (in_int64 x) := by
  unfold in_int64
  infer_instance

/-- Reduction of an integer to the signed 64-bit range (two's complement). -/
def wrap64 (x : Int) : Int :=
  (x + INT64_HALF) % (2 * INT64_HALF) - INT64_HALF

/-- The error number `EINVAL`. -/
def EINVAL : Int := 22

/-- Modelled from the spec: the subscriber core `sub_context_t`, whose
declaration is not part of these sources.  The spec keeps, per publisher, the
timestamp of the oldest packet received but not yet acknowledged (the
"oldest-unacked watermark"), which is `-1` exactly when no packet of that
publisher is unacknowledged; and it keeps the packets that were dispatched and
whose acknowledgement has not been sent yet (the acknowledge-ready packets),
here each with the index of its publisher, oldest first. -/
structure sub_context_t where
  watermarks : List Int
  ack_ready : List (Nat × sub_packet_t)
  deriving DecidableEq, Repr

/-- Modelled from the spec: `sub_get_oldest_unacknowledged_packet`, which is
not part of these sources.  It stores the receipt timestamp of the oldest
packet not yet acknowledged, and `-1` when no publisher has a pending
watermark. -/
def sub_get_oldest_unacknowledged_packet (sub_ctx : sub_context_t) : Int :=
  match sub_ctx.watermarks.filter (fun w => w ≠ -1) with
  | [] => -1
  | w :: ws => ws.foldl min w

/-- The fields of `rmc_sub_context_t` that the timeout code uses: the
subscriber core and the acknowledgement timeout.  The declaration is not part
of these sources; `ack_timeout` is taken as an integer, of whatever integer
type the field has. -/
structure rmc_sub_context_t where
  sub_ctx : sub_context_t
  ack_timeout : Int
  deriving DecidableEq, Repr

/-- The function `rmc_sub_timeout_get_next(ctx, result)`.  `current_ts` is
what `rmc_usec_monotonic_timestamp()` returns; a null pointer is `none`, and
`result` holds the value its target had before the call.  The value is the
return code and the target of `result` after the call. -/
def rmc_sub_timeout_get_next (current_ts : Int) (ctx : Option rmc_sub_context_t)
    (result : Option Int) : Int × Option Int :=
  match ctx, result with
  | some c, some _ =>
    -- Get the timestamp when the oldest packet was received that we have
    -- yet to send an acknowledgement back to the publisher for.
    let oldest_received_ts := sub_get_oldest_unacknowledged_packet c.sub_ctx
    -- Did we have infinite timeout?
    if oldest_received_ts = -1 then (0, some (-1))
    else
      let oldest_received_ts1 :=
        wrap64 (wrap64 (oldest_received_ts + c.ack_timeout) - current_ts)
      let oldest_received_ts2 := if oldest_received_ts1 < 0 then 0 else oldest_received_ts1
      (0, some oldest_received_ts2)
  | _, _ => (EINVAL, result)

/-! ## `rmc_sub_timeout_process` -/

/-- Modelled from the spec: `sub_get_next_acknowledge_ready`, which is not
part of these sources.  It hands out the next packet whose acknowledgement
has not yet been sent, and a null pointer when there is none. -/
def sub_get_next_acknowledge_ready (sub_ctx : sub_context_t) :
    Option (Nat × sub_packet_t) :=
  sub_ctx.ack_ready.head?

/-- Modelled from the spec: `sub_packet_acknowledged`, which is not part of
these sources.  The packet leaves the acknowledge-ready packets (its remaining
bookkeeping is released), and the watermark of its publisher is cleared once
no packet of that publisher waits for its acknowledgement. -/
def sub_packet_acknowledged (sub_ctx : sub_context_t) (pack : Nat × sub_packet_t) :
    sub_context_t :=
  ⟨if (sub_ctx.ack_ready.erase pack).any (fun q => q.1 = pack.1) then sub_ctx.watermarks
    else sub_ctx.watermarks.set pack.1 (-1),
   sub_ctx.ack_ready.erase pack⟩

/-- The loop `while((pack = sub_get_next_acknowledge_ready(...))) { ... }` of
`rmc_sub_timeout_process`, run for at most `fuel` iterations: the context it
leaves and the calls of `_rmc_sub_write_acknowledgement(ctx, pack)` it makes,
each recorded as the publisher and the pid of `pack`, in order. -/
def timeout_process_loop : Nat → rmc_sub_context_t → rmc_sub_context_t × List (Nat × Nat)
  | 0, c => (c, [])
  | fuel + 1, c =>
    match sub_get_next_acknowledge_ready c.sub_ctx with
    | none => (c, [])
    | some pack =>
      let r := timeout_process_loop fuel
        { c with sub_ctx := sub_packet_acknowledged c.sub_ctx pack }
      (r.1, (pack.1, pack.2.pid) :: r.2)

/-- The function `rmc_sub_timeout_process(ctx)`.  `ts` is what
`rmc_usec_monotonic_timestamp()` returns (the source stores it and does not
use it); a null `ctx` is `none`.  The value is the return code, the context
after the call, and the calls of `_rmc_sub_write_acknowledgement` made, each
as the publisher and the pid of the packet handed to it, in order.  The loop
is given as many iterations as there are acknowledge-ready packets, which is
all it takes (`timeout_process_loop_fuel`). -/
def rmc_sub_timeout_process (ts : Int) (ctx : Option rmc_sub_context_t) :
    Int × Option rmc_sub_context_t × List (Nat × Nat) :=
  match ctx with
  | none => (EINVAL, none, [])
  | some c =>
    let _current := ts
    let r := timeout_process_loop c.sub_ctx.ack_ready.length c
    (0, some r.1, r.2)

/-- The number of non-negative values of an `int`, `2^31`. -/
def INT32_HALF : Int := 2147483648

/-- Conversion of an integer to `int` (two's complement, 32 bits). -/
def wrap32 (x : Int) : Int :=
  (x + INT32_HALF) % (2 * INT32_HALF) - INT32_HALF

/-- The fourth argument of the call of `epoll_wait` in `process_events`,
`(timeout_ts == -1)?-1:(timeout_ts / 1000) + 1`, computed on the
`usec_timestamp_t` value `timeout_ts` (the division truncates towards zero)
and converted to the `int` that `epoll_wait` takes. -/
def process_events_wait_timeout (timeout_ts : Int) : Int :=
  wrap32 (if timeout_ts = -1 then -1 else Int.tdiv timeout_ts 1000 + 1)

/-! ## Notions used by the statements -/

/-- The value `process_incoming_data` returns when a packet completes its
publisher and leaves the table `t`: `0` when `check_exit_condition` holds of
`t`, else `1`. -/
def completion_value (t : List sub_expect_t) : Int :=
  if (check_exit_condition t t.length).1 ≠ 0 then 0 else 1

/-- The packets of a sequence handed to `process_incoming_data` one after the
other, each on the table the one before left, as the dispatch loop of
`test_rmc_proto_sub` does: the table after the last packet, or `none` when a
call ended in `exit`. -/
def feed (expect : List sub_expect_t) : List sub_packet_t → Option (List sub_expect_t)
  | [] => some expect
  | pack :: rest =>
    match (process_incoming_data pack expect).result with
    | .returned _ => feed (process_incoming_data pack expect).expect rest
    | .exited _ _ => none

/-- The pids (scanned `current` fields) of the packets of a sequence whose
scanned `node_id` is `p`, in the order of the sequence. -/
def pids_for (p : Nat) (packs : List sub_packet_t) : List Nat :=
  (packs.filter fun k => (sscanf_u_lu_lu k.payload).node_id = p).map
    fun k => (sscanf_u_lu_lu k.payload).current

/-- The pid the verifier last accepted for publisher `p` according to the
table: `0` while the record is not started (the value the first packet sets
`max_received` to before it is checked), else the stored `max_received`. -/
def pid_base (expect : List sub_expect_t) (p : Nat) : Nat :=
  if (expect_at expect p).status = RMC_TEST_SUB_NOT_STARTED then 0
  else (expect_at expect p).max_received

/-- The character of a decimal digit `d < 10`. -/
def digit_char (d : Nat) : Char := Char.ofNat (48 + d)

/-- The decimal text of a number, as `%lu` prints it. -/
def print_dec (n : Nat) : List Char :=
  if n = 0 then ['0'] else (Nat.digits 10 n).reverse.map digit_char

/-- The payload text of publisher `0` with pid `i` and declared maximum `0`,
`0:<i>:0`. -/
def wrap_payload (i : Nat) : List Char :=
  '0' :: ':' :: (print_dec i ++ [':', '0'])

/-- A packet carrying `wrap_payload i`. -/
def wrap_packet (i : Nat) : sub_packet_t :=
  ⟨i, wrap_payload i, (wrap_payload i).length⟩

/-- The sequence of `2^64` packets of publisher `0`, all declaring the maximum
`0`, with the pids `1, 2, ..., 2^64 - 1` and then `0`. -/
def wrap_packets : List sub_packet_t :=
  (List.range' 1 (UINT64_MOD - 1)).map wrap_packet ++ [wrap_packet 0]

/-- A record whose counters respect its declared maximum: the maximum is a
`uint64_t` value; while in progress with a non-zero maximum the count is below
it; when completed the count equals it; and while in progress at least one
packet has been counted. -/
def record_bounded (r : sub_expect_t) : Prop :=
  r.max_expected < UINT64_MOD ∧
  (r.status = RMC_TEST_SUB_IN_PROGRESS → r.max_expected ≠ 0 →
    r.max_received < r.max_expected) ∧
  (r.status = RMC_TEST_SUB_COMPLETED → r.max_received = r.max_expected) ∧
  (r.status = RMC_TEST_SUB_IN_PROGRESS → 1 ≤ r.max_received)

/-- A numeric field in the plain sense: a non-empty run of decimal digits. -/
def is_decimal (f : List Char) : Bool :=
  !f.isEmpty && f.all Char.isDigit

/-- A payload that is exactly three numeric fields of the form
`<node_id>:<current_pid>:<max_expected>`: cut at its colons it gives three
pieces, each a non-empty run of decimal digits. -/
def exactly_three_fields (payload : List Char) : Bool :=
  match payload.splitOn ':' with
  | [f1, f2, f3] => is_decimal f1 && is_decimal f2 && is_decimal f3
  | _ => false

/-- A field as a `%u` or `%lu` conversion takes it: white space or none, then
a sign or none, then a non-empty run of decimal digits. -/
def is_scan_field (f : List Char) : Prop :=
  ∃ ws sign ds : List Char, f = ws ++ (sign ++ ds) ∧
    (∀ c ∈ ws, isspace c = true) ∧
    (sign = [] ∨ sign = ['-'] ∨ sign = ['+']) ∧
    ds ≠ [] ∧ ∀ c ∈ ds, c.isDigit = true

/-- A payload that begins with three fields separated by colons; what follows
the third field is free. -/
def begins_with_three_fields (payload : List Char) : Prop :=
  ∃ f1 f2 f3 rest : List Char,
    payload = f1 ++ ':' :: (f2 ++ ':' :: (f3 ++ rest)) ∧
      is_scan_field f1 ∧ is_scan_field f2 ∧ is_scan_field f3

/-! ## Basic facts about the table -/

theorem expect_at_set_self (expect : List sub_expect_t) (i : Nat) (r : sub_expect_t)
    (h : i < expect.length) : expect_at (expect.set i r) i = r := by
  simp [expect_at, List.getD, h]

theorem expect_at_set_other (expect : List sub_expect_t) (i j : Nat) (r : sub_expect_t)
    (h : i ≠ j) : expect_at (expect.set i r) j = expect_at expect j := by
  simp [expect_at, List.getD, List.getElem?_set_ne h]

theorem check_exit_loop_table (expect : List sub_expect_t) (n : Nat) :
    (check_exit_loop expect n).2 = expect := by
  induction n with
  | zero => rfl
  | succ k ih =>
    unfold check_exit_loop
    split
    · rfl
    · exact ih

theorem check_exit_condition_table (expect : List sub_expect_t) (n : Nat) :
    (check_exit_condition expect n).2 = expect :=
  check_exit_loop_table expect n

theorem check_exit_loop_value (expect : List sub_expect_t) (n : Nat) :
    (check_exit_loop expect n).1 = 0 ∨ (check_exit_loop expect n).1 = 1 := by
  induction n with
  | zero => right; rfl
  | succ k ih =>
    unfold check_exit_loop
    split
    · left; rfl
    · exact ih

/-! ## Basic facts about the scan -/

theorem scan_magnitude_lt (w : Nat) (hw : 0 < w) (neg : Bool) (s : List Char)
    (v : Nat) (r : List Char) (h : scan_magnitude w neg s = some (v, r)) : v < w := by
  unfold scan_magnitude at h
  split at h
  · cases h
  · split at h
    · simp only [Option.some.injEq, Prod.mk.injEq] at h
      rw [← h.1]
      exact Nat.mod_lt _ hw
    · cases h

theorem scan_unsigned_lt (w : Nat) (hw : 0 < w) (s : List Char)
    (v : Nat) (r : List Char) (h : scan_unsigned w s = some (v, r)) : v < w := by
  unfold scan_unsigned at h
  split at h
  · cases h
  · split at h
    · exact scan_magnitude_lt w hw _ _ v r h
    · split at h
      · exact scan_magnitude_lt w hw _ _ v r h
      · exact scan_magnitude_lt w hw _ _ v r h

theorem scan_colon_lu_lt (s : List Char) (v : Nat) (r : List Char)
    (h : scan_colon_lu s = some (v, r)) : v < UINT64_MOD := by
  unfold scan_colon_lu at h
  split at h
  · cases h
  · split at h
    · exact scan_unsigned_lt UINT64_MOD (by decide) _ v r h
    · cases h

/-- Whatever `sscanf` stores on a full match fits the types of the output
variables: `node_id` an `unsigned int`, the other two a `uint64_t`. -/
theorem sscanf_bounds (payload : List Char) (n c m : Nat)
    (h : sscanf_u_lu_lu payload = ⟨3, n, c, m⟩) :
    n < UINT32_MOD ∧ c < UINT64_MOD ∧ m < UINT64_MOD := by
  unfold sscanf_u_lu_lu at h
  split at h
  · simp at h; split at h <;> simp at h
  · rename_i n0 r1 h1
    split at h
    · simp at h
    · rename_i c0 r2 h2
      split at h
      · simp at h
      · rename_i m0 r3 h3
        simp only [scan_result.mk.injEq, true_and] at h
        obtain ⟨rfl, rfl, rfl⟩ := h
        exact ⟨scan_unsigned_lt _ (by decide) _ _ _ h1, scan_colon_lu_lt _ _ _ h2,
          scan_colon_lu_lt _ _ _ h3⟩

theorem process_incoming_data_scanned (pack : sub_packet_t) (expect : List sub_expect_t)
    (n c m : Nat) (h : sscanf_u_lu_lu pack.payload = ⟨3, n, c, m⟩) :
    process_incoming_data pack expect = process_scanned n c m expect := by
  simp [process_incoming_data, h]

/-! ## The branches of `process_incoming_data` -/

theorem process_scanned_in_progress (n c m : Nat) (expect : List sub_expect_t)
    (hn : n < expect.length)
    (hst : (expect_at expect n).status = RMC_TEST_SUB_IN_PROGRESS) :
    process_scanned n c m expect =
      if m ≠ (expect_at expect n).max_expected then
        ⟨expect, true, .exited 255 .max_expected_changed⟩
      else if c ≠ ((expect_at expect n).max_received + 1) % UINT64_MOD then
        ⟨expect, true, .exited 255 .not_consecutive⟩
      else if c = m then
        ⟨expect.set n ⟨RMC_TEST_SUB_COMPLETED, (expect_at expect n).max_expected, c⟩, true,
          .returned (completion_value
            (expect.set n ⟨RMC_TEST_SUB_COMPLETED, (expect_at expect n).max_expected, c⟩))⟩
      else
        ⟨expect.set n ⟨RMC_TEST_SUB_IN_PROGRESS, (expect_at expect n).max_expected, c⟩, true,
          .returned 1⟩ := by
  unfold process_scanned
  rw [if_neg (by omega), if_neg (by rw [hst]; decide), if_neg (by rw [hst]; decide)]
  simp only [hst, if_neg (show ¬ RMC_TEST_SUB_IN_PROGRESS = RMC_TEST_SUB_NOT_STARTED by decide),
    if_true]
  by_cases h1 : m = (expect_at expect n).max_expected
  · by_cases h2 : c = ((expect_at expect n).max_received + 1) % UINT64_MOD
    · by_cases h3 : c = m
      · simp only [ne_eq, h1, not_true_eq_false, if_false, h2, if_true, h3,
          expect_at_set_self _ _ _ hn, List.set_set, check_exit_condition_table,
          completion_value, List.length_set, hst]
        split_ifs <;> simp_all
      · simp only [ne_eq, h1, not_true_eq_false, if_false, h2, if_true, h3,
          expect_at_set_self _ _ _ hn, List.set_set, hst]
        simp_all
    · simp [h1, h2]
  · simp [h1]

theorem process_scanned_not_started (n c m : Nat) (expect : List sub_expect_t)
    (hn : n < expect.length)
    (hst : (expect_at expect n).status = RMC_TEST_SUB_NOT_STARTED) :
    process_scanned n c m expect =
      if c ≠ 1 then
        ⟨expect.set n ⟨RMC_TEST_SUB_IN_PROGRESS, m, 0⟩, true, .exited 255 .not_consecutive⟩
      else if c = m then
        ⟨expect.set n ⟨RMC_TEST_SUB_COMPLETED, m, c⟩, true,
          .returned (completion_value (expect.set n ⟨RMC_TEST_SUB_COMPLETED, m, c⟩))⟩
      else
        ⟨expect.set n ⟨RMC_TEST_SUB_IN_PROGRESS, m, c⟩, true, .returned 1⟩ := by
  unfold process_scanned
  rw [if_neg (by omega), if_neg (by rw [hst]; decide), if_neg (by rw [hst]; decide)]
  simp only [hst, if_true, expect_at_set_self _ _ _ hn, ne_eq, not_true_eq_false, if_false,
    List.set_set, check_exit_condition_table, List.length_set]
  have h01 : (0 + 1) % UINT64_MOD = 1 := by decide
  rw [h01]
  by_cases h2 : c = 1
  · by_cases h3 : c = m
    · simp only [h2, not_true_eq_false, if_false, completion_value, List.length_set]
      split_ifs <;> simp_all
    · simp only [h2, not_true_eq_false, if_false]
      split_ifs <;> simp_all
  · simp [h2]

theorem process_scanned_out_of_range (n c m : Nat) (expect : List sub_expect_t)
    (hn : expect.length ≤ n) :
    process_scanned n c m expect = ⟨expect, true, .exited 255 .out_of_range⟩ := by
  unfold process_scanned
  rw [if_pos hn]

theorem process_scanned_inactive (n c m : Nat) (expect : List sub_expect_t)
    (hn : n < expect.length)
    (hst : (expect_at expect n).status = RMC_TEST_SUB_INACTIVE) :
    process_scanned n c m expect = ⟨expect, true, .exited 255 .not_expected⟩ := by
  unfold process_scanned
  rw [if_neg (by omega), if_pos hst]

theorem process_scanned_completed (n c m : Nat) (expect : List sub_expect_t)
    (hn : n < expect.length)
    (hst : (expect_at expect n).status = RMC_TEST_SUB_COMPLETED) :
    process_scanned n c m expect = ⟨expect, true, .exited 255 .already_completed⟩ := by
  unfold process_scanned
  rw [if_neg (by omega), if_neg (by rw [hst]; decide), if_pos hst]

/-- Records at an index other than the scanned `node_id` are left alone. -/
theorem process_scanned_other (n c m : Nat) (expect : List sub_expect_t) (j : Nat)
    (hj : n ≠ j) :
    expect_at (process_scanned n c m expect).expect j = expect_at expect j := by
  by_cases hn : expect.length ≤ n
  · rw [process_scanned_out_of_range _ _ _ _ hn]
  · have hn1 : n < expect.length := by omega
    cases hst : (expect_at expect n).status with
    | RMC_TEST_SUB_INACTIVE => rw [process_scanned_inactive _ _ _ _ hn1 hst]
    | RMC_TEST_SUB_COMPLETED => rw [process_scanned_completed _ _ _ _ hn1 hst]
    | RMC_TEST_SUB_NOT_STARTED =>
      rw [process_scanned_not_started _ _ _ _ hn1 hst]
      split_ifs <;> simp only [expect_at_set_other _ _ _ _ hj]
    | RMC_TEST_SUB_IN_PROGRESS =>
      rw [process_scanned_in_progress _ _ _ _ hn1 hst]
      split_ifs <;> simp only [expect_at_set_other _ _ _ _ hj]

theorem process_scanned_length (n c m : Nat) (expect : List sub_expect_t) :
    (process_scanned n c m expect).expect.length = expect.length := by
  by_cases hn : expect.length ≤ n
  · rw [process_scanned_out_of_range _ _ _ _ hn]
  · have hn1 : n < expect.length := by omega
    cases hst : (expect_at expect n).status with
    | RMC_TEST_SUB_INACTIVE => rw [process_scanned_inactive _ _ _ _ hn1 hst]
    | RMC_TEST_SUB_COMPLETED => rw [process_scanned_completed _ _ _ _ hn1 hst]
    | RMC_TEST_SUB_NOT_STARTED =>
      rw [process_scanned_not_started _ _ _ _ hn1 hst]
      split_ifs <;> simp only [List.length_set]
    | RMC_TEST_SUB_IN_PROGRESS =>
      rw [process_scanned_in_progress _ _ _ _ hn1 hst]
      split_ifs <;> simp only [List.length_set]

theorem process_incoming_data_other (pack : sub_packet_t) (expect : List sub_expect_t)
    (j : Nat) (hj : (sscanf_u_lu_lu pack.payload).node_id ≠ j) :
    expect_at (process_incoming_data pack expect).expect j = expect_at expect j := by
  unfold process_incoming_data
  simp only
  split_ifs
  · rfl
  · exact process_scanned_other _ _ _ _ _ hj

theorem process_incoming_data_length (pack : sub_packet_t) (expect : List sub_expect_t) :
    (process_incoming_data pack expect).expect.length = expect.length := by
  unfold process_incoming_data
  simp only
  split_ifs
  · rfl
  · exact process_scanned_length _ _ _ _

/-- A record that is inactive or completed is not touched by any packet. -/
theorem process_incoming_data_closed (pack : sub_packet_t) (expect : List sub_expect_t)
    (j : Nat) (hj : j < expect.length)
    (hst : (expect_at expect j).status = RMC_TEST_SUB_INACTIVE ∨
      (expect_at expect j).status = RMC_TEST_SUB_COMPLETED) :
    expect_at (process_incoming_data pack expect).expect j = expect_at expect j := by
  by_cases hn : (sscanf_u_lu_lu pack.payload).node_id = j
  · unfold process_incoming_data
    simp only
    split_ifs
    · rfl
    · rw [hn]
      rcases hst with h | h
      · rw [process_scanned_inactive _ _ _ _ hj h]
      · rw [process_scanned_completed _ _ _ _ hj h]
  · exact process_incoming_data_other pack expect j hn

theorem check_exit_loop_one_iff (expect : List sub_expect_t) (n : Nat) :
    (check_exit_loop expect n).1 = 1 ↔
      ∀ i, i < n → (expect_at expect i).status ≠ RMC_TEST_SUB_NOT_STARTED ∧
        (expect_at expect i).status ≠ RMC_TEST_SUB_IN_PROGRESS := by
  induction n with
  | zero => simp [check_exit_loop]
  | succ k ih =>
    unfold check_exit_loop
    split_ifs with h
    · constructor
      · intro h0; simp at h0
      · intro hall
        have := hall k (Nat.lt_succ_self k)
        tauto
    · rw [ih]
      constructor
      · intro hall i hi
        rcases Nat.lt_succ_iff_lt_or_eq.mp hi with h1 | h1
        · exact hall i h1
        · subst h1; tauto
      · intro hall i hi
        exact hall i (Nat.lt_succ_of_lt hi)

/-! ## Claims: single steps of `process_incoming_data` -/

/-- C1. In-progress accept step: for every table, every in-range `node_id`
whose record is in progress, and every packet scanned as
`(node_id, pid, declared_max)` with `declared_max` the stored `max_expected`
and `pid` equal to `max_received + 1` (as a number, or as the `uint64_t` sum
of the source), the call returns (`0` or `1`, no exit), the record's
`max_received` becomes `pid`, its `max_expected` is unchanged, and its status
is completed if and only if `pid = max_expected`, in progress otherwise. -/
theorem in_progress_accept (pack : sub_packet_t) (expect : List sub_expect_t)
    (node_id pid declared_max : Nat)
    (hscan : sscanf_u_lu_lu pack.payload = ⟨3, node_id, pid, declared_max⟩)
    (hrange : node_id < expect.length)
    (hst : (expect_at expect node_id).status = RMC_TEST_SUB_IN_PROGRESS)
    (hmax : declared_max = (expect_at expect node_id).max_expected)
    (hpid : pid = (expect_at expect node_id).max_received + 1 ∨
      pid = ((expect_at expect node_id).max_received + 1) % UINT64_MOD) :
    ((process_incoming_data pack expect).result = .returned 0 ∨
      (process_incoming_data pack expect).result = .returned 1) ∧
    (process_incoming_data pack expect).dispatched = true ∧
    (expect_at (process_incoming_data pack expect).expect node_id).max_received = pid ∧
    (expect_at (process_incoming_data pack expect).expect node_id).max_expected =
      (expect_at expect node_id).max_expected ∧
    ((expect_at (process_incoming_data pack expect).expect node_id).status =
      RMC_TEST_SUB_COMPLETED ↔ pid = (expect_at expect node_id).max_expected) ∧
    (pid ≠ (expect_at expect node_id).max_expected →
      (expect_at (process_incoming_data pack expect).expect node_id).status =
        RMC_TEST_SUB_IN_PROGRESS) := by
  have hb := sscanf_bounds _ _ _ _ hscan
  have hpid2 : pid = ((expect_at expect node_id).max_received + 1) % UINT64_MOD := by
    rcases hpid with h | h
    · rw [← h, Nat.mod_eq_of_lt hb.2.1]
    · exact h
  rw [process_incoming_data_scanned pack expect _ _ _ hscan,
    process_scanned_in_progress _ _ _ _ hrange hst]
  rw [if_neg (by simp [hmax]), if_neg (by simp [← hpid2])]
  by_cases hc : pid = declared_max
  · rw [if_pos hc]
    simp only [expect_at_set_self _ _ _ hrange, completion_value]
    refine ⟨?_, trivial, trivial, trivial, ?_, ?_⟩
    · split_ifs <;> simp
    · simp [← hmax, hc]
    · intro h; exact absurd (hc.trans hmax) h
  · rw [if_neg hc]
    simp only [expect_at_set_self _ _ _ hrange]
    refine ⟨Or.inr trivial, trivial, trivial, trivial, ?_, ?_⟩
    · simp [← hmax, hc]
    · intro _; trivial

theorem in_progress_accept_witness :
    (process_incoming_data (packet_of 2 "2:2:3")
        [⟨RMC_TEST_SUB_INACTIVE, 0, 0⟩, ⟨RMC_TEST_SUB_INACTIVE, 0, 0⟩,
          ⟨RMC_TEST_SUB_IN_PROGRESS, 3, 1⟩, ⟨RMC_TEST_SUB_INACTIVE, 0, 0⟩]).result
        = .returned 1 ∧
      (expect_at (process_incoming_data (packet_of 2 "2:2:3")
        [⟨RMC_TEST_SUB_INACTIVE, 0, 0⟩, ⟨RMC_TEST_SUB_INACTIVE, 0, 0⟩,
          ⟨RMC_TEST_SUB_IN_PROGRESS, 3, 1⟩, ⟨RMC_TEST_SUB_INACTIVE, 0, 0⟩]).expect
        2).max_received = 2 := by
  have h := in_progress_accept (packet_of 2 "2:2:3")
    [⟨RMC_TEST_SUB_INACTIVE, 0, 0⟩, ⟨RMC_TEST_SUB_INACTIVE, 0, 0⟩,
      ⟨RMC_TEST_SUB_IN_PROGRESS, 3, 1⟩, ⟨RMC_TEST_SUB_INACTIVE, 0, 0⟩] 2 2 3
    (by decide) (by decide) (by decide) (by decide) (Or.inl (by decide))
  exact ⟨by decide, h.2.2.1⟩

/-- C4. Completion is monotone: when the record of an in-range `node_id` is
completed, every packet scanned for that `node_id`, whatever its pid and
declared maximum, ends the call in `exit(255)` with the "already processed"
diagnostic and leaves the table as it was; and no packet at all, for this or
any other publisher, changes the completed record. -/
theorem completed_is_final (expect : List sub_expect_t) (node_id : Nat)
    (hrange : node_id < expect.length)
    (hst : (expect_at expect node_id).status = RMC_TEST_SUB_COMPLETED) :
    (∀ (pack : sub_packet_t) (pid declared_max : Nat),
      sscanf_u_lu_lu pack.payload = ⟨3, node_id, pid, declared_max⟩ →
        (process_incoming_data pack expect).result = .exited 255 .already_completed ∧
        (process_incoming_data pack expect).expect = expect) ∧
    (∀ pack : sub_packet_t,
      expect_at (process_incoming_data pack expect).expect node_id =
        expect_at expect node_id) := by
  constructor
  · intro pack pid declared_max hscan
    rw [process_incoming_data_scanned pack expect _ _ _ hscan,
      process_scanned_completed _ _ _ _ hrange hst]
    exact ⟨rfl, rfl⟩
  · intro pack
    exact process_incoming_data_closed pack expect node_id hrange (Or.inr hst)

theorem completed_is_final_witness :
    (process_incoming_data (packet_of 4 "2:4:3")
        [⟨RMC_TEST_SUB_INACTIVE, 0, 0⟩, ⟨RMC_TEST_SUB_INACTIVE, 0, 0⟩,
          ⟨RMC_TEST_SUB_COMPLETED, 3, 3⟩, ⟨RMC_TEST_SUB_INACTIVE, 0, 0⟩]).result
      = .exited 255 .already_completed :=
  ((completed_is_final
      [⟨RMC_TEST_SUB_INACTIVE, 0, 0⟩, ⟨RMC_TEST_SUB_INACTIVE, 0, 0⟩,
        ⟨RMC_TEST_SUB_COMPLETED, 3, 3⟩, ⟨RMC_TEST_SUB_INACTIVE, 0, 0⟩] 2
      (by decide) (by decide)).1 (packet_of 4 "2:4:3") 4 3 (by decide)).1

/-- C5. Gap detection: when the record of an in-range `node_id` is in progress
and a packet scanned for it declares the stored `max_expected` but carries a
pid other than `max_received + 1` (the `uint64_t` sum the source compares
with), the call ends in `exit(255)` with the "Wanted/Got" diagnostic, and the
table is left as it was: the packet is not accepted. -/
theorem gap_is_fatal (pack : sub_packet_t) (expect : List sub_expect_t)
    (node_id pid declared_max : Nat)
    (hscan : sscanf_u_lu_lu pack.payload = ⟨3, node_id, pid, declared_max⟩)
    (hrange : node_id < expect.length)
    (hst : (expect_at expect node_id).status = RMC_TEST_SUB_IN_PROGRESS)
    (hmax : declared_max = (expect_at expect node_id).max_expected)
    (hpid : pid ≠ ((expect_at expect node_id).max_received + 1) % UINT64_MOD) :
    (process_incoming_data pack expect).result = .exited 255 .not_consecutive ∧
    (process_incoming_data pack expect).expect = expect := by
  rw [process_incoming_data_scanned pack expect _ _ _ hscan,
    process_scanned_in_progress _ _ _ _ hrange hst]
  rw [if_neg (by simp [hmax]), if_pos hpid]
  exact ⟨rfl, rfl⟩

theorem gap_is_fatal_witness :
    (process_incoming_data (packet_of 1 "1:1:5")
        (init_expect [0, 1])).expect = [⟨RMC_TEST_SUB_INACTIVE, 0, 0⟩,
          ⟨RMC_TEST_SUB_IN_PROGRESS, 5, 1⟩] ∧
      (process_incoming_data (packet_of 1 "1:1:5") (init_expect [0, 1])).result
        = .returned 1 ∧
      (process_incoming_data (packet_of 3 "1:3:5")
        [⟨RMC_TEST_SUB_INACTIVE, 0, 0⟩, ⟨RMC_TEST_SUB_IN_PROGRESS, 5, 1⟩]).result
        = .exited 255 .not_consecutive :=
  ⟨by decide, by decide,
    (gap_is_fatal (packet_of 3 "1:3:5")
      [⟨RMC_TEST_SUB_INACTIVE, 0, 0⟩, ⟨RMC_TEST_SUB_IN_PROGRESS, 5, 1⟩] 1 3 5
      (by decide) (by decide) (by decide) (by decide) (by decide)).1⟩

/-- C6. Inconsistent declaration: when the record of an in-range `node_id` is
in progress and a packet scanned for it declares a maximum other than the
stored `max_expected`, the call ends in `exit(255)` with the "max_expected
changed" diagnostic whatever the pid is, consecutive or not: the declared
maximum is checked first.  The table is left as it was. -/
theorem changed_max_is_fatal (pack : sub_packet_t) (expect : List sub_expect_t)
    (node_id pid declared_max : Nat)
    (hscan : sscanf_u_lu_lu pack.payload = ⟨3, node_id, pid, declared_max⟩)
    (hrange : node_id < expect.length)
    (hst : (expect_at expect node_id).status = RMC_TEST_SUB_IN_PROGRESS)
    (hmax : declared_max ≠ (expect_at expect node_id).max_expected) :
    (process_incoming_data pack expect).result = .exited 255 .max_expected_changed ∧
    (process_incoming_data pack expect).expect = expect := by
  rw [process_incoming_data_scanned pack expect _ _ _ hscan,
    process_scanned_in_progress _ _ _ _ hrange hst]
  rw [if_pos hmax]
  exact ⟨rfl, rfl⟩

theorem changed_max_is_fatal_witness :
    (process_incoming_data (packet_of 2 "1:2:6")
        [⟨RMC_TEST_SUB_INACTIVE, 0, 0⟩, ⟨RMC_TEST_SUB_IN_PROGRESS, 5, 1⟩]).result
        = .exited 255 .max_expected_changed ∧
      (process_incoming_data (packet_of 7 "1:7:6")
        [⟨RMC_TEST_SUB_INACTIVE, 0, 0⟩, ⟨RMC_TEST_SUB_IN_PROGRESS, 5, 1⟩]).result
        = .exited 255 .max_expected_changed :=
  ⟨(changed_max_is_fatal (packet_of 2 "1:2:6")
      [⟨RMC_TEST_SUB_INACTIVE, 0, 0⟩, ⟨RMC_TEST_SUB_IN_PROGRESS, 5, 1⟩] 1 2 6
      (by decide) (by decide) (by decide) (by decide)).1,
    (changed_max_is_fatal (packet_of 7 "1:7:6")
      [⟨RMC_TEST_SUB_INACTIVE, 0, 0⟩, ⟨RMC_TEST_SUB_IN_PROGRESS, 5, 1⟩] 1 7 6
      (by decide) (by decide) (by decide) (by decide)).1⟩

/-- C7. Out of range: for a table of any size `n` (also `0`) in any state and
a packet scanned with `node_id ≥ n`, the call ends in `exit(255)` with the
"out of range" diagnostic; the table is left as it was, and the outcome does
not depend on what the records hold: any other table of the same size gives
the same result. -/
theorem out_of_range_is_fatal (pack : sub_packet_t) (expect : List sub_expect_t)
    (node_id pid declared_max : Nat)
    (hscan : sscanf_u_lu_lu pack.payload = ⟨3, node_id, pid, declared_max⟩)
    (hrange : expect.length ≤ node_id) :
    (process_incoming_data pack expect).result = .exited 255 .out_of_range ∧
    (process_incoming_data pack expect).expect = expect ∧
    (∀ other : List sub_expect_t, other.length = expect.length →
      (process_incoming_data pack other).result = (process_incoming_data pack expect).result ∧
      (process_incoming_data pack other).expect = other) := by
  rw [process_incoming_data_scanned pack expect _ _ _ hscan,
    process_scanned_out_of_range _ _ _ _ hrange]
  refine ⟨rfl, rfl, ?_⟩
  intro other hlen
  rw [process_incoming_data_scanned pack other _ _ _ hscan,
    process_scanned_out_of_range _ _ _ _ (by omega)]
  exact ⟨rfl, rfl⟩

theorem out_of_range_is_fatal_witness :
    (process_incoming_data (packet_of 1 "5:1:1") (init_expect [0, 0, 1, 0])).result
      = .exited 255 .out_of_range :=
  (out_of_range_is_fatal (packet_of 1 "5:1:1") (init_expect [0, 0, 1, 0]) 5 1 1
    (by decide) (by decide)).1

/-- C8. Unexpected publisher: when the record of an in-range `node_id` is
inactive, every packet scanned for that `node_id` ends the call in `exit(255)`
with the "not expected" diagnostic and leaves the table as it was; and no
packet at all changes the inactive record, so it stays inactive. -/
theorem inactive_is_fatal (expect : List sub_expect_t) (node_id : Nat)
    (hrange : node_id < expect.length)
    (hst : (expect_at expect node_id).status = RMC_TEST_SUB_INACTIVE) :
    (∀ (pack : sub_packet_t) (pid declared_max : Nat),
      sscanf_u_lu_lu pack.payload = ⟨3, node_id, pid, declared_max⟩ →
        (process_incoming_data pack expect).result = .exited 255 .not_expected ∧
        (process_incoming_data pack expect).expect = expect) ∧
    (∀ pack : sub_packet_t,
      (expect_at (process_incoming_data pack expect).expect node_id).status =
        RMC_TEST_SUB_INACTIVE) := by
  constructor
  · intro pack pid declared_max hscan
    rw [process_incoming_data_scanned pack expect _ _ _ hscan,
      process_scanned_inactive _ _ _ _ hrange hst]
    exact ⟨rfl, rfl⟩
  · intro pack
    rw [process_incoming_data_closed pack expect node_id hrange (Or.inl hst)]
    exact hst

theorem inactive_is_fatal_witness :
    (process_incoming_data (packet_of 1 "0:1:3") (init_expect [0, 0, 1, 0])).result
      = .exited 255 .not_expected :=
  ((inactive_is_fatal (init_expect [0, 0, 1, 0]) 0 (by decide) (by decide)).1
    (packet_of 1 "0:1:3") 1 3 (by decide)).1

/-- C9. All done is a function of the table alone: `check_exit_condition`
returns `1` exactly when every record that is not inactive is completed,
which is to say when no record is not started or in progress; it returns `0`
in every other case; and the table after the call is the table before it. -/
theorem check_exit_condition_spec (expect : List sub_expect_t) :
    ((check_exit_condition expect expect.length).1 = 1 ↔
      ∀ i, i < expect.length →
        (expect_at expect i).status ≠ RMC_TEST_SUB_INACTIVE →
          (expect_at expect i).status = RMC_TEST_SUB_COMPLETED) ∧
    ((check_exit_condition expect expect.length).1 = 1 ↔
      ∀ i, i < expect.length →
        (expect_at expect i).status ≠ RMC_TEST_SUB_NOT_STARTED ∧
          (expect_at expect i).status ≠ RMC_TEST_SUB_IN_PROGRESS) ∧
    ((check_exit_condition expect expect.length).1 ≠ 1 →
      (check_exit_condition expect expect.length).1 = 0) ∧
    (check_exit_condition expect expect.length).2 = expect := by
  have h := check_exit_loop_one_iff expect expect.length
  refine ⟨?_, h, ?_, check_exit_condition_table expect _⟩
  · unfold check_exit_condition
    rw [h]
    constructor
    · intro hall i hi hne
      have := hall i hi
      cases hs : (expect_at expect i).status <;> simp_all
    · intro hall i hi
      have := hall i hi
      cases hs : (expect_at expect i).status <;> simp_all
  · intro hne
    rcases check_exit_loop_value expect expect.length with h0 | h1
    · exact h0
    · exact absurd h1 hne

/-! ## Claims: sequences of packets -/

theorem feed_append (expect : List sub_expect_t) (l1 l2 : List sub_packet_t) :
    feed expect (l1 ++ l2) = (feed expect l1).bind fun e => feed e l2 := by
  induction l1 generalizing expect with
  | nil => rfl
  | cons pack rest ih =>
    simp only [List.cons_append, feed]
    split
    · exact ih _
    · rfl

/-- C3. Round trip: for `N ≥ 1` and an in-range publisher whose record is not
started, packets scanned as `(node_id, 1, N)`, `(node_id, 2, N)`, ...,
`(node_id, N, N)` and fed in this order are all handled without `exit`: after
the first `i` of them (`1 ≤ i ≤ N`) the table is the initial one with the
publisher's record replaced by `max_expected = N`, `max_received = i` and
status in progress when `i < N`, completed when `i = N`. -/
theorem round_trip (expect : List sub_expect_t) (node_id N : Nat)
    (packs : List sub_packet_t)
    (hN : 1 ≤ N)
    (hrange : node_id < expect.length)
    (hst : (expect_at expect node_id).status = RMC_TEST_SUB_NOT_STARTED)
    (hlen : packs.length = N)
    (hscan : ∀ (i : Nat) (pack : sub_packet_t), packs[i]? = some pack →
      sscanf_u_lu_lu pack.payload = ⟨3, node_id, i + 1, N⟩) :
    ∀ i, 1 ≤ i → i ≤ N →
      feed expect (packs.take i) =
        some (expect.set node_id
          ⟨if i = N then RMC_TEST_SUB_COMPLETED else RMC_TEST_SUB_IN_PROGRESS, N, i⟩) := by
  have hNlt : N < UINT64_MOD := by
    have h0 : (0 : Nat) < packs.length := by omega
    have := hscan 0 packs[0] (List.getElem?_eq_getElem h0)
    exact (sscanf_bounds _ _ _ _ this).2.2
  intro i
  induction i with
  | zero => intro h; omega
  | succ k ih =>
    intro _ hk
    have hklt : k < packs.length := by omega
    have hsc := hscan k packs[k] (List.getElem?_eq_getElem hklt)
    rw [List.take_succ, List.getElem?_eq_getElem hklt, feed_append]
    simp only [Option.toList]
    by_cases hk0 : k = 0
    · subst hk0
      simp only [List.take_zero, feed, Option.some_bind]
      rw [process_incoming_data_scanned _ _ _ _ _ hsc,
        process_scanned_not_started _ _ _ _ hrange hst]
      simp only [zero_add, ne_eq, not_true_eq_false, if_false]
      by_cases h1 : 1 = N
      · simp [h1]
      · simp [h1]
    · rw [ih (by omega) (by omega), if_neg (by omega)]
      simp only [Option.some_bind, feed]
      have hrange2 : node_id <
          (expect.set node_id ⟨RMC_TEST_SUB_IN_PROGRESS, N, k⟩).length := by
        simpa using hrange
      rw [process_incoming_data_scanned _ _ _ _ _ hsc,
        process_scanned_in_progress _ _ _ _ hrange2
          (by rw [expect_at_set_self _ _ _ hrange])]
      simp only [expect_at_set_self _ _ _ hrange, ne_eq, not_true_eq_false, if_false,
        List.set_set]
      have hmod : (k + 1) % UINT64_MOD = k + 1 := Nat.mod_eq_of_lt (by omega)
      rw [hmod]
      by_cases h1 : k + 1 = N
      · simp [h1]
      · simp [h1]

theorem round_trip_witness :
    feed (init_expect [0, 0, 1, 0])
        [packet_of 1 "2:1:3", packet_of 2 "2:2:3", packet_of 3 "2:3:3"] =
      some [⟨RMC_TEST_SUB_INACTIVE, 0, 0⟩, ⟨RMC_TEST_SUB_INACTIVE, 0, 0⟩,
        ⟨RMC_TEST_SUB_COMPLETED, 3, 3⟩, ⟨RMC_TEST_SUB_INACTIVE, 0, 0⟩] :=
  round_trip (init_expect [0, 0, 1, 0]) 2 3
    [packet_of 1 "2:1:3", packet_of 2 "2:2:3", packet_of 3 "2:3:3"]
    (by decide) (by decide) (by decide) (by decide)
    (by
      intro i pack h
      rcases i with _ | _ | _ | i
      · simp at h; subst h; decide
      · simp at h; subst h; decide
      · simp at h; subst h; decide
      · simp at h)
    3 (by decide) (by decide)

/-- A packet that is accepted carries the pid that follows the last accepted
one in `uint64_t` arithmetic, and becomes the last accepted one. -/
theorem accepted_step (pack : sub_packet_t) (expect : List sub_expect_t) (v : Int)
    (h : (process_incoming_data pack expect).result = .returned v) :
    (sscanf_u_lu_lu pack.payload).current =
        (pid_base expect (sscanf_u_lu_lu pack.payload).node_id + 1) % UINT64_MOD ∧
      pid_base (process_incoming_data pack expect).expect
        (sscanf_u_lu_lu pack.payload).node_id = (sscanf_u_lu_lu pack.payload).current := by
  unfold process_incoming_data at h ⊢
  simp only at h ⊢
  by_cases hc : (sscanf_u_lu_lu pack.payload).count ≠ 3
  · rw [if_pos hc] at h; cases h
  · rw [if_neg hc] at h ⊢
    generalize (sscanf_u_lu_lu pack.payload).node_id = n at h ⊢
    generalize (sscanf_u_lu_lu pack.payload).current = c at h ⊢
    generalize (sscanf_u_lu_lu pack.payload).max_expected = m at h ⊢
    by_cases hn : expect.length ≤ n
    · rw [process_scanned_out_of_range _ _ _ _ hn] at h; cases h
    · have hn1 : n < expect.length := by omega
      cases hst : (expect_at expect n).status with
      | RMC_TEST_SUB_INACTIVE =>
        rw [process_scanned_inactive _ _ _ _ hn1 hst] at h; cases h
      | RMC_TEST_SUB_COMPLETED =>
        rw [process_scanned_completed _ _ _ _ hn1 hst] at h; cases h
      | RMC_TEST_SUB_NOT_STARTED =>
        rw [process_scanned_not_started _ _ _ _ hn1 hst] at h ⊢
        have h01 : (0 + 1) % UINT64_MOD = 1 := by decide
        have hb : pid_base expect n = 0 := by simp [pid_base, hst]
        rw [hb, h01]
        by_cases h1 : c = 1
        · by_cases h2 : c = m
          · rw [if_neg (by simpa using h1), if_pos h2]
            exact ⟨h1, by simp [pid_base, expect_at_set_self _ _ _ hn1]⟩
          · rw [if_neg (by simpa using h1), if_neg h2]
            exact ⟨h1, by simp [pid_base, expect_at_set_self _ _ _ hn1]⟩
        · rw [if_pos h1] at h; cases h
      | RMC_TEST_SUB_IN_PROGRESS =>
        rw [process_scanned_in_progress _ _ _ _ hn1 hst] at h ⊢
        have hb : pid_base expect n = (expect_at expect n).max_received := by
          simp [pid_base, hst]
        rw [hb]
        by_cases h1 : m = (expect_at expect n).max_expected
        · by_cases h2 : c = ((expect_at expect n).max_received + 1) % UINT64_MOD
          · by_cases h3 : c = m
            · rw [if_neg (by simpa using h1), if_neg (by simpa using h2), if_pos h3]
              exact ⟨h2, by simp [pid_base, expect_at_set_self _ _ _ hn1]⟩
            · rw [if_neg (by simpa using h1), if_neg (by simpa using h2), if_neg h3]
              exact ⟨h2, by simp [pid_base, expect_at_set_self _ _ _ hn1]⟩
          · rw [if_neg (by simpa using h1), if_pos h2] at h; cases h
        · rw [if_pos h1] at h; cases h

theorem pid_base_other (pack : sub_packet_t) (expect : List sub_expect_t) (p : Nat)
    (hp : (sscanf_u_lu_lu pack.payload).node_id ≠ p) :
    pid_base (process_incoming_data pack expect).expect p = pid_base expect p := by
  unfold pid_base
  rw [process_incoming_data_other pack expect p hp]

theorem pids_for_cons_self (p : Nat) (pack : sub_packet_t) (rest : List sub_packet_t)
    (hp : (sscanf_u_lu_lu pack.payload).node_id = p) :
    pids_for p (pack :: rest) = (sscanf_u_lu_lu pack.payload).current :: pids_for p rest := by
  simp [pids_for, List.filter_cons, hp]

theorem pids_for_cons_other (p : Nat) (pack : sub_packet_t) (rest : List sub_packet_t)
    (hp : (sscanf_u_lu_lu pack.payload).node_id ≠ p) :
    pids_for p (pack :: rest) = pids_for p rest := by
  simp [pids_for, List.filter_cons, hp]

/-- From any table: as long as the counter cannot wrap, the pids accepted for
`p` continue the stored count one by one. -/
theorem ordering_from (packs : List sub_packet_t) :
    ∀ (expect final : List sub_expect_t) (p : Nat), feed expect packs = some final →
      pid_base expect p + (pids_for p packs).length < UINT64_MOD →
        pids_for p packs = List.range' (pid_base expect p + 1) (pids_for p packs).length := by
  induction packs with
  | nil => intro expect final p _ _; rfl
  | cons pack rest ih =>
    intro expect final p hfeed hlen
    simp only [feed] at hfeed
    split at hfeed
    · rename_i v hres
      have hstep := accepted_step pack expect v hres
      by_cases hp : (sscanf_u_lu_lu pack.payload).node_id = p
      · rw [hp] at hstep
        rw [pids_for_cons_self p pack rest hp] at hlen ⊢
        simp only [List.length_cons] at hlen ⊢
        have hcur : (sscanf_u_lu_lu pack.payload).current = pid_base expect p + 1 := by
          rw [hstep.1]; exact Nat.mod_eq_of_lt (by omega)
        have := ih _ final p hfeed (by rw [hstep.2, hcur]; omega)
        rw [hstep.2, hcur] at this
        rw [List.range'_succ, hcur, ← this]
      · rw [pids_for_cons_other p pack rest hp] at hlen ⊢
        have := ih _ final p hfeed (by rw [pid_base_other pack expect p hp]; exact hlen)
        rw [pid_base_other pack expect p hp] at this
        exact this
    · cases hfeed

theorem pid_base_init (node_id_map : List Nat) (p : Nat) :
    pid_base (init_expect node_id_map) p = 0 := by
  unfold pid_base expect_at init_expect
  rw [List.getD_eq_getElem?_getD, List.getElem?_map]
  cases node_id_map[p]? with
  | none => simp
  | some m => by_cases hm : m = 0 <;> simp [hm]

/-- C2. Ordering enforced by the verifier (amended): starting from the initial
table, for every publisher `p` and every sequence of packets that is handled
without `exit` and holds fewer than `2^64` packets for `p`, the pids of the
packets of `p` are `1, 2, ..., k` in this order. -/
theorem accepted_pids_consecutive (node_id_map : List Nat) (p : Nat)
    (packs : List sub_packet_t) (final : List sub_expect_t)
    (hfeed : feed (init_expect node_id_map) packs = some final)
    (hlen : (pids_for p packs).length < UINT64_MOD) :
    pids_for p packs = List.range' 1 (pids_for p packs).length := by
  have h := ordering_from packs (init_expect node_id_map) final p hfeed
    (by rw [pid_base_init]; omega)
  rw [pid_base_init] at h
  exact h

theorem accepted_pids_consecutive_witness :
    feed (init_expect [0, 0, 1, 0])
        [packet_of 1 "2:1:3", packet_of 2 "2:2:3", packet_of 3 "2:3:3"] =
      some [⟨RMC_TEST_SUB_INACTIVE, 0, 0⟩, ⟨RMC_TEST_SUB_INACTIVE, 0, 0⟩,
        ⟨RMC_TEST_SUB_COMPLETED, 3, 3⟩, ⟨RMC_TEST_SUB_INACTIVE, 0, 0⟩] ∧
      pids_for 2 [packet_of 1 "2:1:3", packet_of 2 "2:2:3", packet_of 3 "2:3:3"] =
        [1, 2, 3] :=
  ⟨by decide,
    accepted_pids_consecutive [0, 0, 1, 0] 2
      [packet_of 1 "2:1:3", packet_of 2 "2:2:3", packet_of 3 "2:3:3"]
      [⟨RMC_TEST_SUB_INACTIVE, 0, 0⟩, ⟨RMC_TEST_SUB_INACTIVE, 0, 0⟩,
        ⟨RMC_TEST_SUB_COMPLETED, 3, 3⟩, ⟨RMC_TEST_SUB_INACTIVE, 0, 0⟩]
      (by decide) (by decide)⟩

/-! ### The counter wraps after `2^64 - 1` packets -/

theorem digit_char_spec (d : Nat) (h : d < 10) :
    (digit_char d).isDigit = true ∧ (digit_char d).toNat - 48 = d := by
  interval_cases d <;> exact ⟨by decide, by decide⟩

theorem scan_digits_map (ms : List Nat) (hms : ∀ d ∈ ms, d < 10) (rest : List Char)
    (acc : Nat) :
    scan_digits (ms.map digit_char ++ ':' :: rest) acc =
      (ms.foldl (fun a d => 10 * a + d) acc, ':' :: rest) := by
  induction ms generalizing acc with
  | nil =>
    simp only [List.map_nil, List.nil_append, List.foldl_nil, scan_digits]
    rw [if_neg (by decide)]
  | cons d ds ih =>
    have hd := digit_char_spec d (hms d (List.mem_cons_self d ds))
    simp only [List.map_cons, List.cons_append, List.foldl_cons, scan_digits]
    rw [if_pos hd.1, hd.2]
    exact ih (fun x hx => hms x (List.mem_cons_of_mem d hx)) _

theorem foldr_digits (ds : List Nat) :
    ds.foldr (fun d a => 10 * a + d) 0 = Nat.ofDigits 10 ds := by
  induction ds with
  | nil => rfl
  | cons d ds ih =>
    simp only [List.foldr_cons, Nat.ofDigits_cons, ih]
    omega

/-- The first character of the text of a number is a digit, and scanning the
text gives the number back. -/
theorem print_dec_scan (n : Nat) (rest : List Char) :
    ∃ c cs, print_dec n = c :: cs ∧ c.isDigit = true ∧
      scan_digits (print_dec n ++ ':' :: rest) 0 = (n, ':' :: rest) := by
  unfold print_dec
  by_cases hn : n = 0
  · subst hn
    refine ⟨'0', [], by simp, by decide, ?_⟩
    simp only [if_true, List.cons_append, List.nil_append, scan_digits]
    rw [if_pos (by decide), if_neg (by decide)]
    rfl
  · rw [if_neg hn]
    have hlt : ∀ d ∈ (Nat.digits 10 n).reverse, d < 10 := fun d hd =>
      Nat.digits_lt_base (by decide) (List.mem_reverse.mp hd)
    have hne : (Nat.digits 10 n).reverse ≠ [] := by
      simpa using (Nat.digits_ne_nil_iff_ne_zero.mpr hn)
    rw [scan_digits_map _ hlt, List.foldl_reverse, foldr_digits, Nat.ofDigits_digits]
    cases hds : (Nat.digits 10 n).reverse with
    | nil => exact absurd hds hne
    | cons d ds =>
      refine ⟨digit_char d, ds.map digit_char, by simp, ?_, rfl⟩
      exact (digit_char_spec d (hlt d (by rw [hds]; exact List.mem_cons_self d ds))).1

theorem scan_unsigned_digit (w : Nat) (c : Char) (cs : List Char) (hc : c.isDigit = true) :
    scan_unsigned w (c :: cs) = scan_magnitude w false (c :: cs) := by
  have hsp : isspace c = false := by
    unfold isspace
    simp only [Char.isDigit, Bool.and_eq_true, decide_eq_true_eq] at hc
    have h1 : 48 ≤ c.toNat := hc.1
    simp only [Bool.or_eq_false_iff, Bool.and_eq_false_iff, decide_eq_false_iff_not]
    omega
  have hminus : c ≠ '-' := by
    intro h; subst h; exact absurd hc (by decide)
  have hplus : c ≠ '+' := by
    intro h; subst h; exact absurd hc (by decide)
  simp only [scan_unsigned, skip_space, hsp, Bool.false_eq_true, if_false, hminus, hplus]

theorem scan_unsigned_print_dec (n : Nat) (hn : n < UINT64_MOD) (rest : List Char) :
    scan_unsigned UINT64_MOD (print_dec n ++ ':' :: rest) = some (n, ':' :: rest) := by
  obtain ⟨c, cs, hcs, hc, hscan⟩ := print_dec_scan n rest
  rw [hcs] at hscan ⊢
  rw [List.cons_append] at hscan ⊢
  rw [scan_unsigned_digit _ _ _ hc]
  simp only [scan_magnitude, hc, if_true, hscan]
  rw [if_neg (by omega), if_neg (by simp), Nat.mod_eq_of_lt hn]

theorem sscanf_wrap_payload (i : Nat) (hi : i < UINT64_MOD) :
    sscanf_u_lu_lu (wrap_payload i) = ⟨3, 0, i, 0⟩ := by
  have h1 : ∀ rest, scan_unsigned UINT32_MOD ('0' :: ':' :: rest) = some (0, ':' :: rest) := by
    intro rest
    have hsd : scan_digits ('0' :: ':' :: rest) 0 = (0, ':' :: rest) := by
      simp only [scan_digits]
      rw [if_pos (by decide), if_neg (by decide)]
      rfl
    rw [scan_unsigned_digit _ _ _ (by decide)]
    simp only [scan_magnitude]
    rw [if_pos (by decide), hsd]
    rfl
  have h3 : scan_colon_lu [':', '0'] = some (0, []) := by decide
  unfold sscanf_u_lu_lu wrap_payload
  rw [h1]
  simp only [scan_colon_lu, if_true]
  rw [scan_unsigned_print_dec i hi]
  simp only [if_true]
  have h4 : scan_unsigned UINT64_MOD ['0'] = some (0, []) := by decide
  rw [h4]

theorem wrap_step (k c : Nat) (hc : c = k + 1) (hlt : c < UINT64_MOD) :
    process_incoming_data (wrap_packet c) [⟨RMC_TEST_SUB_IN_PROGRESS, 0, k⟩] =
      ⟨[⟨RMC_TEST_SUB_IN_PROGRESS, 0, c⟩], true, .returned 1⟩ := by
  have hsc : sscanf_u_lu_lu (wrap_packet c).payload = ⟨3, 0, c, 0⟩ :=
    sscanf_wrap_payload c hlt
  rw [process_incoming_data_scanned _ _ _ _ _ hsc,
    process_scanned_in_progress 0 c 0 [⟨RMC_TEST_SUB_IN_PROGRESS, 0, k⟩]
      (Nat.zero_lt_one) rfl]
  have hat : expect_at [(⟨RMC_TEST_SUB_IN_PROGRESS, 0, k⟩ : sub_expect_t)] 0 =
      ⟨RMC_TEST_SUB_IN_PROGRESS, 0, k⟩ := rfl
  rw [hat]
  simp only
  rw [if_neg (by simp), if_neg (by rw [← hc, Nat.mod_eq_of_lt hlt]; simp),
    if_neg (by omega)]
  rfl

theorem feed_wrap_run (j : Nat) :
    ∀ k, k + j < UINT64_MOD →
      feed [⟨RMC_TEST_SUB_IN_PROGRESS, 0, k⟩] ((List.range' (k + 1) j).map wrap_packet) =
        some [⟨RMC_TEST_SUB_IN_PROGRESS, 0, k + j⟩] := by
  induction j with
  | zero => intro k _; rfl
  | succ j ih =>
    intro k hk
    rw [List.range'_succ, List.map_cons]
    simp only [feed]
    rw [wrap_step k (k + 1) rfl (by omega)]
    simp only
    rw [ih (k + 1) (by omega)]
    congr 3
    omega

theorem feed_wrap_general (n : Nat) (hn : n + 2 = UINT64_MOD) :
    feed [⟨RMC_TEST_SUB_NOT_STARTED, 0, 0⟩]
        ((List.range' 1 (n + 1)).map wrap_packet ++ [wrap_packet 0]) =
      some [⟨RMC_TEST_SUB_COMPLETED, 0, 0⟩] := by
  have hM : (0 : Nat) < UINT64_MOD := by decide
  have hfirst : process_incoming_data (wrap_packet 1) [⟨RMC_TEST_SUB_NOT_STARTED, 0, 0⟩] =
      ⟨[⟨RMC_TEST_SUB_IN_PROGRESS, 0, 1⟩], true, .returned 1⟩ := by
    rw [process_incoming_data_scanned _ _ _ _ _ (sscanf_wrap_payload 1 (by decide)),
      process_scanned_not_started 0 1 0 [⟨RMC_TEST_SUB_NOT_STARTED, 0, 0⟩] (by decide) rfl]
    rfl
  have hlast : process_incoming_data (wrap_packet 0) [⟨RMC_TEST_SUB_IN_PROGRESS, 0, n + 1⟩] =
      ⟨[⟨RMC_TEST_SUB_COMPLETED, 0, 0⟩], true, .returned 0⟩ := by
    rw [process_incoming_data_scanned _ _ _ _ _ (sscanf_wrap_payload 0 hM),
      process_scanned_in_progress 0 0 0 [⟨RMC_TEST_SUB_IN_PROGRESS, 0, n + 1⟩]
        (Nat.zero_lt_one) rfl]
    have hat : expect_at [(⟨RMC_TEST_SUB_IN_PROGRESS, 0, n + 1⟩ : sub_expect_t)] 0 =
        ⟨RMC_TEST_SUB_IN_PROGRESS, 0, n + 1⟩ := rfl
    rw [hat]
    simp only
    have hz : (n + 1 + 1) % UINT64_MOD = 0 := by
      rw [show n + 1 + 1 = UINT64_MOD by omega]; exact Nat.mod_self _
    rw [if_neg (by simp), if_neg (by rw [hz]; simp), if_pos trivial]
    rfl
  rw [feed_append, List.range'_succ, List.map_cons]
  simp only [feed]
  rw [hfirst]
  simp only
  rw [feed_wrap_run n 1 (by omega)]
  simp only [Option.some_bind, feed]
  rw [show 1 + n = n + 1 by omega, hlast]

theorem pids_for_append (p : Nat) (l1 l2 : List sub_packet_t) :
    pids_for p (l1 ++ l2) = pids_for p l1 ++ pids_for p l2 := by
  simp [pids_for, List.filter_append]

theorem pids_for_wrap (l : List Nat) (hl : ∀ i ∈ l, i < UINT64_MOD) :
    pids_for 0 (l.map wrap_packet) = l := by
  induction l with
  | nil => rfl
  | cons i rest ih =>
    have hsc : sscanf_u_lu_lu (wrap_packet i).payload = ⟨3, 0, i, 0⟩ :=
      sscanf_wrap_payload i (hl i (List.mem_cons_self i rest))
    rw [List.map_cons, pids_for_cons_self 0 _ _ (by rw [hsc]), hsc,
      ih (fun x hx => hl x (List.mem_cons_of_mem i hx))]

/-- C2, as stated, fails when the `uint64_t` counter wraps.  With publisher
`0` marked expected and every packet declaring the maximum `0`, the `2^64`
packets with pids `1, 2, ..., 2^64 - 1, 0` are all handled without `exit` (the
last one completes the publisher), and the pids accepted for publisher `0`,
which are these, are not `1, 2, ..., k`. -/
theorem accepted_pids_wrap :
    feed (init_expect [1]) wrap_packets = some [⟨RMC_TEST_SUB_COMPLETED, 0, 0⟩] ∧
      pids_for 0 wrap_packets = List.range' 1 (UINT64_MOD - 1) ++ [0] ∧
      pids_for 0 wrap_packets ≠ List.range' 1 (pids_for 0 wrap_packets).length := by
  have hpids : pids_for 0 wrap_packets = List.range' 1 (UINT64_MOD - 1) ++ [0] := by
    unfold wrap_packets
    rw [pids_for_append, pids_for_wrap _ (fun i hi => by
      have := (List.mem_range'_1.mp hi).2
      have hM : 1 + (UINT64_MOD - 1) = UINT64_MOD := by decide
      omega)]
    have hsc : sscanf_u_lu_lu (wrap_packet 0).payload = ⟨3, 0, 0, 0⟩ :=
      sscanf_wrap_payload 0 (by decide)
    rw [pids_for_cons_self 0 _ _ (by rw [hsc]), hsc]
    rfl
  refine ⟨?_, hpids, ?_⟩
  · have hinit : init_expect [1] = [⟨RMC_TEST_SUB_NOT_STARTED, 0, 0⟩] := by decide
    have hsplit : UINT64_MOD - 1 = (UINT64_MOD - 2) + 1 := by decide
    unfold wrap_packets
    rw [hinit, hsplit]
    exact feed_wrap_general (UINT64_MOD - 2) (by decide)
  · intro h
    have hmem : 0 ∈ pids_for 0 wrap_packets := by
      rw [hpids]; exact List.mem_append_right _ (List.mem_singleton_self 0)
    rw [h] at hmem
    have := (List.mem_range'_1.mp hmem).1
    omega

/-! ## Claims: the acknowledgement deadline -/

theorem wrap64_of_in_int64 (x : Int) (h : in_int64 x) : wrap64 x = x := by
  unfold in_int64 INT64_HALF at h
  unfold wrap64 INT64_HALF
  omega

/-- C10. Deadline of `rmc_sub_timeout_get_next`: with `ctx` and `result` not
null, `w` the oldest-unacknowledged receipt timestamp, `t` the ack timeout and
`now` the current time, the call returns `0` and stores a value `d` such that:
`d = -1` when `w = -1`; otherwise `d = max 0 (w + t - now)`, provided the sum
and the difference are `usec_timestamp_t` values; `d = -1` exactly when
`w = -1`; a stored `d` other than `-1` is not negative; and when `w = now` is
a pending watermark and `t` is a duration (a `usec_timestamp_t` value that is
not negative), `d = t`. -/
theorem timeout_get_next_deadline (c : rmc_sub_context_t) (now old : Int) :
    (rmc_sub_timeout_get_next now (some c) (some old)).1 = 0 ∧
    ∃ d : Int, (rmc_sub_timeout_get_next now (some c) (some old)).2 = some d ∧
      (sub_get_oldest_unacknowledged_packet c.sub_ctx = -1 → d = -1) ∧
      (sub_get_oldest_unacknowledged_packet c.sub_ctx ≠ -1 →
        in_int64 (sub_get_oldest_unacknowledged_packet c.sub_ctx + c.ack_timeout) →
        in_int64 (sub_get_oldest_unacknowledged_packet c.sub_ctx + c.ack_timeout - now) →
          d = max 0 (sub_get_oldest_unacknowledged_packet c.sub_ctx + c.ack_timeout - now)) ∧
      (d = -1 ↔ sub_get_oldest_unacknowledged_packet c.sub_ctx = -1) ∧
      (d ≠ -1 → 0 ≤ d) ∧
      (sub_get_oldest_unacknowledged_packet c.sub_ctx ≠ -1 →
        sub_get_oldest_unacknowledged_packet c.sub_ctx = now →
        0 ≤ c.ack_timeout → c.ack_timeout < INT64_HALF → d = c.ack_timeout) := by
  unfold rmc_sub_timeout_get_next
  simp only
  by_cases hw : sub_get_oldest_unacknowledged_packet c.sub_ctx = -1
  · rw [if_pos hw]
    refine ⟨rfl, -1, rfl, fun _ => rfl, fun h => absurd hw h, ⟨fun _ => hw, fun _ => rfl⟩,
      fun h => absurd rfl h, fun h => absurd hw h⟩
  · rw [if_neg hw]
    refine ⟨rfl, _, rfl, fun h => absurd h hw, ?_, ?_, ?_, ?_⟩
    · intro _ h1 h2
      rw [wrap64_of_in_int64 _ h1, wrap64_of_in_int64 _ h2]
      split_ifs with h3
      · rw [max_eq_left (le_of_lt h3)]
      · rw [max_eq_right (not_lt.mp h3)]
    · constructor
      · intro h
        split_ifs at h with h3
        · omega
      · intro h; exact absurd h hw
    · intro _
      split_ifs with h3
      · exact le_refl 0
      · exact not_lt.mp h3
    · intro _ hnow ht htop
      rw [hnow, if_neg]
      · unfold INT64_HALF at htop
        unfold wrap64 INT64_HALF
        omega
      · unfold INT64_HALF at htop
        unfold wrap64 INT64_HALF
        omega

theorem timeout_get_next_deadline_witness :
    rmc_sub_timeout_get_next 0 (some ⟨⟨[-1, -1, -1, 0], []⟩, 100000⟩) (some 0)
        = (0, some 100000) ∧
      rmc_sub_timeout_get_next 150000 (some ⟨⟨[-1, -1, -1, 0], []⟩, 100000⟩) (some 0)
        = (0, some 0) ∧
      rmc_sub_timeout_get_next 150000 (some ⟨⟨[-1, -1, -1, -1], []⟩, 100000⟩) (some 0)
        = (0, some (-1)) ∧
      ∃ d : Int,
        (rmc_sub_timeout_get_next 0 (some ⟨⟨[-1, -1, -1, 0], []⟩, 100000⟩) (some 0)).2 = some d ∧
          d = 100000 := by
  refine ⟨by decide, by decide, by decide, ?_⟩
  obtain ⟨d, hd, _, _, _, _, h5⟩ :=
    (timeout_get_next_deadline ⟨⟨[-1, -1, -1, 0], []⟩, 100000⟩ 0 0).2
  exact ⟨d, hd, h5 (by decide) (by decide) (by decide) (by decide)⟩

/-! ## Claims: scanning, return value and frame of `process_incoming_data` -/

/-- What an accepted packet does: its publisher was in range, not started or
in progress, and its record becomes `⟨COMPLETED, m, c⟩` when `c = m` (the call
then returning the completion value) and `⟨IN_PROGRESS, m, c⟩` otherwise (the
call then returning `1`); nothing else in the table changes. -/
theorem process_scanned_accepted (n c m : Nat) (expect : List sub_expect_t) (v : Int)
    (h : (process_scanned n c m expect).result = .returned v) :
    n < expect.length ∧
    ((expect_at expect n).status = RMC_TEST_SUB_NOT_STARTED ∨
      (expect_at expect n).status = RMC_TEST_SUB_IN_PROGRESS) ∧
    ((c = m ∧
        (process_scanned n c m expect).expect =
          expect.set n ⟨RMC_TEST_SUB_COMPLETED, m, c⟩ ∧
        v = completion_value (expect.set n ⟨RMC_TEST_SUB_COMPLETED, m, c⟩)) ∨
      (c ≠ m ∧
        (process_scanned n c m expect).expect =
          expect.set n ⟨RMC_TEST_SUB_IN_PROGRESS, m, c⟩ ∧
        v = 1)) := by
  by_cases hn : expect.length ≤ n
  · rw [process_scanned_out_of_range _ _ _ _ hn] at h; cases h
  · have hn1 : n < expect.length := by omega
    refine ⟨hn1, ?_⟩
    cases hst : (expect_at expect n).status with
    | RMC_TEST_SUB_INACTIVE =>
      rw [process_scanned_inactive _ _ _ _ hn1 hst] at h; cases h
    | RMC_TEST_SUB_COMPLETED =>
      rw [process_scanned_completed _ _ _ _ hn1 hst] at h; cases h
    | RMC_TEST_SUB_NOT_STARTED =>
      refine ⟨Or.inl rfl, ?_⟩
      rw [process_scanned_not_started _ _ _ _ hn1 hst] at h ⊢
      by_cases h1 : c = 1
      · by_cases h2 : c = m
        · rw [if_neg (by simpa using h1), if_pos h2] at h ⊢
          simp only [call_result.returned.injEq] at h
          exact Or.inl ⟨h2, rfl, h.symm⟩
        · rw [if_neg (by simpa using h1), if_neg h2] at h ⊢
          simp only [call_result.returned.injEq] at h
          exact Or.inr ⟨h2, rfl, h.symm⟩
      · rw [if_pos h1] at h; cases h
    | RMC_TEST_SUB_IN_PROGRESS =>
      refine ⟨Or.inr rfl, ?_⟩
      rw [process_scanned_in_progress _ _ _ _ hn1 hst] at h ⊢
      by_cases h1 : m = (expect_at expect n).max_expected
      · by_cases h2 : c = ((expect_at expect n).max_received + 1) % UINT64_MOD
        · by_cases h3 : c = m
          · rw [if_neg (by simpa using h1), if_neg (by simpa using h2), if_pos h3] at h ⊢
            simp only [call_result.returned.injEq] at h
            rw [← h1] at h ⊢
            exact Or.inl ⟨h3, rfl, h.symm⟩
          · rw [if_neg (by simpa using h1), if_neg (by simpa using h2), if_neg h3] at h ⊢
            simp only [call_result.returned.injEq] at h
            rw [← h1]
            exact Or.inr ⟨h3, rfl, h.symm⟩
        · rw [if_neg (by simpa using h1), if_pos h2] at h; cases h
      · rw [if_pos h1] at h; cases h

/-- An accepted packet was scanned in full, so the call went through the body
after the scan. -/
theorem accepted_scanned (pack : sub_packet_t) (expect : List sub_expect_t) (v : Int)
    (h : (process_incoming_data pack expect).result = .returned v) :
    process_incoming_data pack expect =
      process_scanned (sscanf_u_lu_lu pack.payload).node_id
        (sscanf_u_lu_lu pack.payload).current
        (sscanf_u_lu_lu pack.payload).max_expected expect := by
  unfold process_incoming_data at h ⊢
  simp only at h ⊢
  by_cases hc : (sscanf_u_lu_lu pack.payload).count ≠ 3
  · rw [if_pos hc] at h; cases h
  · rw [if_neg hc]

theorem completion_value_cases (t : List sub_expect_t) :
    (completion_value t = 0 ∧ (check_exit_condition t t.length).1 = 1) ∨
      (completion_value t = 1 ∧ (check_exit_condition t t.length).1 = 0) := by
  unfold completion_value
  rcases check_exit_loop_value t t.length with h0 | h1
  · right
    have h0c : (check_exit_condition t t.length).1 = 0 := h0
    simp [h0c]
  · left
    have h1c : (check_exit_condition t t.length).1 = 1 := h1
    simp [h1c]

/-- A payload on which the scan does not assign all three fields ends the
call in `exit(255)` before anything is changed. -/
theorem not_scanned_is_fatal (pack : sub_packet_t) (expect : List sub_expect_t)
    (hscan : (sscanf_u_lu_lu pack.payload).count ≠ 3) :
    process_incoming_data pack expect =
      ⟨expect, false, .exited 255 .payload_not_scanned⟩ := by
  unfold process_incoming_data
  simp only
  rw [if_pos hscan]

/-! ### Which payloads the scan takes -/

theorem skip_space_eq (s : List Char) : skip_space s = s.dropWhile isspace := by
  induction s with
  | nil => rfl
  | cons c cs ih =>
    unfold skip_space
    by_cases hc : isspace c = true
    · rw [if_pos hc, List.dropWhile_cons_of_pos hc, ih]
    · rw [if_neg hc, List.dropWhile_cons_of_neg hc]

theorem scan_digits_rest (s : List Char) :
    ∀ acc, (scan_digits s acc).2 = s.dropWhile Char.isDigit := by
  induction s with
  | nil => intro acc; rfl
  | cons c cs ih =>
    intro acc
    unfold scan_digits
    by_cases hc : c.isDigit = true
    · rw [if_pos hc, List.dropWhile_cons_of_pos hc, ih]
    · rw [if_neg hc, List.dropWhile_cons_of_neg hc]

theorem dropWhile_append_all (p : Char → Bool) (l rest : List Char)
    (hl : ∀ c ∈ l, p c = true) : (l ++ rest).dropWhile p = rest.dropWhile p := by
  induction l with
  | nil => rfl
  | cons c cs ih =>
    rw [List.cons_append, List.dropWhile_cons_of_pos (hl c (List.mem_cons_self c cs))]
    exact ih (fun x hx => hl x (List.mem_cons_of_mem c hx))

theorem takeWhile_all (p : Char → Bool) (l : List Char) :
    ∀ c ∈ l.takeWhile p, p c = true := by
  induction l with
  | nil => intro c hc; cases hc
  | cons x xs ih =>
    intro c hc
    by_cases hx : p x = true
    · rw [List.takeWhile_cons_of_pos hx, List.mem_cons] at hc
      rcases hc with h | h
      · rw [h]; exact hx
      · exact ih c h
    · rw [List.takeWhile_cons_of_neg hx] at hc; cases hc

/-- The digits of a conversion: it succeeds exactly on input that starts with
a digit, takes the whole run of digits and leaves the input after it. -/
theorem scan_magnitude_sound (w : Nat) (neg : Bool) (s : List Char) (v : Nat)
    (r : List Char) (h : scan_magnitude w neg s = some (v, r)) :
    ∃ ds : List Char, ds ≠ [] ∧ (∀ c ∈ ds, c.isDigit = true) ∧ s = ds ++ r := by
  unfold scan_magnitude at h
  split at h
  · cases h
  · rename_i c cs
    split at h
    · rename_i hc
      simp only [Option.some.injEq, Prod.mk.injEq] at h
      have hr : r = (c :: cs).dropWhile Char.isDigit := by
        rw [← h.2, scan_digits_rest]
      refine ⟨(c :: cs).takeWhile Char.isDigit, ?_, takeWhile_all _ _, ?_⟩
      · rw [List.takeWhile_cons_of_pos hc]; exact List.cons_ne_nil _ _
      · rw [hr, List.takeWhile_append_dropWhile]
    · cases h

theorem scan_magnitude_complete (w : Nat) (neg : Bool) (ds rest : List Char)
    (hne : ds ≠ []) (hds : ∀ c ∈ ds, c.isDigit = true) :
    ∃ v, scan_magnitude w neg (ds ++ rest) = some (v, rest.dropWhile Char.isDigit) := by
  cases ds with
  | nil => exact absurd rfl hne
  | cons c cs =>
    have hc : c.isDigit = true := hds c (List.mem_cons_self c cs)
    have hrest : (scan_digits (c :: (cs ++ rest)) 0).2 = rest.dropWhile Char.isDigit := by
      rw [scan_digits_rest, ← List.cons_append, dropWhile_append_all _ _ _ hds]
    simp only [List.cons_append, scan_magnitude, hc, if_true, hrest]
    exact ⟨_, rfl⟩

theorem isspace_of_digit (c : Char) (hc : c.isDigit = true) : isspace c = false := by
  unfold isspace
  simp only [Char.isDigit, Bool.and_eq_true, decide_eq_true_eq] at hc
  have h1 : 48 ≤ c.toNat := hc.1
  simp only [Bool.or_eq_false_iff, Bool.and_eq_false_iff, decide_eq_false_iff_not]
  omega

/-- One conversion succeeds only on input that starts with a field, and
leaves the input after that field. -/
theorem scan_unsigned_sound (w : Nat) (s : List Char) (v : Nat) (r : List Char)
    (h : scan_unsigned w s = some (v, r)) :
    ∃ f : List Char, is_scan_field f ∧ s = f ++ r := by
  unfold scan_unsigned at h
  have hsplit := List.takeWhile_append_dropWhile isspace s
  have hws := takeWhile_all isspace s
  rw [skip_space_eq] at h
  generalize s.takeWhile isspace = ws at hsplit hws
  split at h
  · cases h
  · rename_i c cs hdrop
    rw [hdrop] at hsplit
    split at h
    · rename_i hminus
      obtain ⟨ds, hne, hds, hcs⟩ := scan_magnitude_sound _ _ _ _ _ h
      refine ⟨ws ++ (['-'] ++ ds),
        ⟨ws, ['-'], ds, rfl, hws, Or.inr (Or.inl rfl), hne, hds⟩, ?_⟩
      rw [← hsplit, hminus, hcs]
      simp
    · split at h
      · rename_i hplus
        obtain ⟨ds, hne, hds, hcs⟩ := scan_magnitude_sound _ _ _ _ _ h
        refine ⟨ws ++ (['+'] ++ ds),
          ⟨ws, ['+'], ds, rfl, hws, Or.inr (Or.inr rfl), hne, hds⟩, ?_⟩
        rw [← hsplit, hplus, hcs]
        simp
      · obtain ⟨ds, hne, hds, hcs⟩ := scan_magnitude_sound _ _ _ _ _ h
        refine ⟨ws ++ ([] ++ ds),
          ⟨ws, [], ds, rfl, hws, Or.inl rfl, hne, hds⟩, ?_⟩
        rw [← hsplit, hcs]
        simp

/-- One conversion succeeds on every input that starts with a field, and
leaves the input after the field less the digits it starts with. -/
theorem scan_unsigned_complete (w : Nat) (f rest : List Char) (hf : is_scan_field f) :
    ∃ v, scan_unsigned w (f ++ rest) = some (v, rest.dropWhile Char.isDigit) := by
  obtain ⟨ws, sign, ds, hf, hws, hsign, hne, hds⟩ := hf
  have hskip : ∀ x : List Char, scan_unsigned w (ws ++ x) = scan_unsigned w x := by
    intro x
    unfold scan_unsigned
    rw [skip_space_eq, skip_space_eq, dropWhile_append_all _ _ _ hws]
  rw [hf, List.append_assoc, hskip, List.append_assoc]
  rcases hsign with h | h | h
  · rw [h, List.nil_append]
    cases ds with
    | nil => exact absurd rfl hne
    | cons c cs =>
      have hc : c.isDigit = true := hds c (List.mem_cons_self c cs)
      rw [List.cons_append, scan_unsigned_digit _ _ _ hc, ← List.cons_append]
      exact scan_magnitude_complete w false _ rest hne hds
  · rw [h]
    have hsk : skip_space ('-' :: (ds ++ rest)) = '-' :: (ds ++ rest) := by
      unfold skip_space
      rw [if_neg (by decide)]
    have hm : scan_unsigned w (['-'] ++ (ds ++ rest)) =
        scan_magnitude w true (ds ++ rest) := by
      show scan_unsigned w ('-' :: (ds ++ rest)) = _
      unfold scan_unsigned
      rw [hsk]
      dsimp only
      rw [if_pos rfl]
    rw [hm]
    exact scan_magnitude_complete w true _ rest hne hds
  · rw [h]
    have hsk : skip_space ('+' :: (ds ++ rest)) = '+' :: (ds ++ rest) := by
      unfold skip_space
      rw [if_neg (by decide)]
    have hp : scan_unsigned w (['+'] ++ (ds ++ rest)) =
        scan_magnitude w false (ds ++ rest) := by
      show scan_unsigned w ('+' :: (ds ++ rest)) = _
      unfold scan_unsigned
      rw [hsk]
      dsimp only
      rw [if_neg (by decide), if_pos rfl]
    rw [hp]
    exact scan_magnitude_complete w false _ rest hne hds

theorem scan_colon_lu_iff (s : List Char) (v : Nat) (r : List Char) :
    scan_colon_lu s = some (v, r) ↔
      ∃ t, s = ':' :: t ∧ scan_unsigned UINT64_MOD t = some (v, r) := by
  unfold scan_colon_lu
  cases s with
  | nil => simp
  | cons c cs =>
    by_cases hc : c = ':'
    · subst hc; simp
    · simp [hc]

theorem sscanf_count_three_iff (payload : List Char) :
    (sscanf_u_lu_lu payload).count = 3 ↔
      ∃ n r1 c r2 m r3, scan_unsigned UINT32_MOD payload = some (n, r1) ∧
        scan_colon_lu r1 = some (c, r2) ∧ scan_colon_lu r2 = some (m, r3) := by
  unfold sscanf_u_lu_lu
  constructor
  · intro h
    split at h
    · simp only at h
      split_ifs at h
      cases h
    · rename_i n r1 h1
      split at h
      · simp at h
      · rename_i c r2 h2
        split at h
        · simp at h
        · rename_i m r3 h3
          exact ⟨n, r1, c, r2, m, r3, h1, h2, h3⟩
  · rintro ⟨n, r1, c, r2, m, r3, h1, h2, h3⟩
    simp only [h1, h2, h3]

/-- The scan assigns all three fields exactly for the payloads that begin
with three fields separated by colons. -/
theorem scanned_iff_begins (payload : List Char) :
    (sscanf_u_lu_lu payload).count = 3 ↔ begins_with_three_fields payload := by
  rw [sscanf_count_three_iff]
  constructor
  · rintro ⟨n, r1, c, r2, m, r3, h1, h2, h3⟩
    obtain ⟨t1, ht1, h2⟩ := (scan_colon_lu_iff _ _ _).mp h2
    obtain ⟨t2, ht2, h3⟩ := (scan_colon_lu_iff _ _ _).mp h3
    obtain ⟨f1, hf1, e1⟩ := scan_unsigned_sound _ _ _ _ h1
    obtain ⟨f2, hf2, e2⟩ := scan_unsigned_sound _ _ _ _ h2
    obtain ⟨f3, hf3, e3⟩ := scan_unsigned_sound _ _ _ _ h3
    refine ⟨f1, f2, f3, r3, ?_, hf1, hf2, hf3⟩
    rw [e1, ht1, e2, ht2, e3]
  · rintro ⟨f1, f2, f3, rest, hp, hf1, hf2, hf3⟩
    have hcolon : ∀ x : List Char, (':' :: x).dropWhile Char.isDigit = ':' :: x := by
      intro x
      exact List.dropWhile_cons_of_neg (by decide)
    obtain ⟨n, h1⟩ := scan_unsigned_complete UINT32_MOD f1 (':' :: (f2 ++ ':' :: (f3 ++ rest))) hf1
    obtain ⟨c, h2⟩ := scan_unsigned_complete UINT64_MOD f2 (':' :: (f3 ++ rest)) hf2
    obtain ⟨m, h3⟩ := scan_unsigned_complete UINT64_MOD f3 rest hf3
    rw [hcolon] at h1 h2
    refine ⟨n, ':' :: (f2 ++ ':' :: (f3 ++ rest)), c, ':' :: (f3 ++ rest), m,
      rest.dropWhile Char.isDigit, by rw [hp]; exact h1, ?_, ?_⟩
    · exact (scan_colon_lu_iff _ _ _).mpr ⟨_, rfl, h2⟩
    · exact (scan_colon_lu_iff _ _ _).mpr ⟨_, rfl, h3⟩

theorem is_decimal_scan_field (f : List Char) (h : is_decimal f = true) :
    is_scan_field f := by
  unfold is_decimal at h
  simp only [Bool.and_eq_true, Bool.not_eq_true', List.isEmpty_eq_false, List.all_eq_true] at h
  exact ⟨[], [], f, rfl, fun c hc => (by cases hc), Or.inl rfl, h.1, h.2⟩

/-- A payload that is exactly three numeric fields begins with three fields. -/
theorem exactly_three_begins (payload : List Char)
    (h : exactly_three_fields payload = true) : begins_with_three_fields payload := by
  unfold exactly_three_fields at h
  have hjoin := List.intercalate_splitOn payload ':'
  split at h
  · rename_i f1 f2 f3 hsplit
    rw [hsplit] at hjoin
    simp only [Bool.and_eq_true] at h
    refine ⟨f1, f2, f3, [], ?_, is_decimal_scan_field f1 h.1.1,
      is_decimal_scan_field f2 h.1.2, is_decimal_scan_field f3 h.2⟩
    rw [← hjoin]
    simp [List.intercalate]
  · cases h

theorem process_scanned_dispatched (n c m : Nat) (expect : List sub_expect_t) :
    (process_scanned n c m expect).dispatched = true ∧
      (process_scanned n c m expect).result ≠ .exited 255 .payload_not_scanned := by
  by_cases hn : expect.length ≤ n
  · rw [process_scanned_out_of_range _ _ _ _ hn]
    exact ⟨rfl, fun h => by cases h⟩
  · have hn1 : n < expect.length := by omega
    cases hst : (expect_at expect n).status with
    | RMC_TEST_SUB_INACTIVE =>
      rw [process_scanned_inactive _ _ _ _ hn1 hst]
      exact ⟨rfl, fun h => by cases h⟩
    | RMC_TEST_SUB_COMPLETED =>
      rw [process_scanned_completed _ _ _ _ hn1 hst]
      exact ⟨rfl, fun h => by cases h⟩
    | RMC_TEST_SUB_NOT_STARTED =>
      rw [process_scanned_not_started _ _ _ _ hn1 hst]
      split_ifs <;> exact ⟨rfl, fun h => by cases h⟩
    | RMC_TEST_SUB_IN_PROGRESS =>
      rw [process_scanned_in_progress _ _ _ _ hn1 hst]
      split_ifs <;> exact ⟨rfl, fun h => by cases h⟩

/-- C11 (amended). Malformed payload: for every payload that does not begin
with three fields separated by colons, each field being white space or none,
a sign or none and a non-empty run of decimal digits, the call ends in
`exit(255)` with the "could not be scanned" diagnostic, the table is the one
handed in and `rmc_sub_packet_dispatched` has not been called.  Every payload
that does begin so is scanned, whatever follows its third field: the packet
is marked dispatched and the call does not end with that diagnostic.  The
payloads that are exactly three numeric fields are among these. -/
theorem malformed_payload_fatal (pack : sub_packet_t) (expect : List sub_expect_t) :
    (¬ begins_with_three_fields pack.payload →
      process_incoming_data pack expect =
        ⟨expect, false, .exited 255 .payload_not_scanned⟩) ∧
    (begins_with_three_fields pack.payload →
      (process_incoming_data pack expect).dispatched = true ∧
        (process_incoming_data pack expect).result ≠ .exited 255 .payload_not_scanned) ∧
    (exactly_three_fields pack.payload = true → begins_with_three_fields pack.payload) := by
  refine ⟨fun hno => ?_, fun hyes => ?_, exactly_three_begins pack.payload⟩
  · exact not_scanned_is_fatal pack expect
      (fun h => hno ((scanned_iff_begins pack.payload).mp h))
  · have hcount := (scanned_iff_begins pack.payload).mpr hyes
    unfold process_incoming_data
    simp only
    rw [if_neg (by rw [hcount]; simp)]
    exact process_scanned_dispatched _ _ _ _

theorem malformed_payload_fatal_witness :
    process_incoming_data (packet_of 1 "abc") (init_expect [0, 0, 1, 0]) =
      ⟨init_expect [0, 0, 1, 0], false, .exited 255 .payload_not_scanned⟩ :=
  (malformed_payload_fatal (packet_of 1 "abc") (init_expect [0, 0, 1, 0])).1
    (fun h => absurd ((scanned_iff_begins (packet_of 1 "abc").payload).mpr h) (by decide))

/-- C11, as stated, fails for payloads that are not three numeric fields yet
begin with three: `2:1:3:4` has four fields and ` 2:1:3` starts with a blank,
and both are scanned and accepted as pid `1` of `3` for publisher `2`, the
packet marked dispatched and the table changed. -/
theorem trailing_text_accepted :
    exactly_three_fields "2:1:3:4".data = false ∧
      process_incoming_data (packet_of 1 "2:1:3:4") (init_expect [0, 0, 1, 0]) =
        ⟨[⟨RMC_TEST_SUB_INACTIVE, 0, 0⟩, ⟨RMC_TEST_SUB_INACTIVE, 0, 0⟩,
          ⟨RMC_TEST_SUB_IN_PROGRESS, 3, 1⟩, ⟨RMC_TEST_SUB_INACTIVE, 0, 0⟩], true,
          .returned 1⟩ ∧
      exactly_three_fields " 2:1:3".data = false ∧
      process_incoming_data (packet_of 1 " 2:1:3") (init_expect [0, 0, 1, 0]) =
        ⟨[⟨RMC_TEST_SUB_INACTIVE, 0, 0⟩, ⟨RMC_TEST_SUB_INACTIVE, 0, 0⟩,
          ⟨RMC_TEST_SUB_IN_PROGRESS, 3, 1⟩, ⟨RMC_TEST_SUB_INACTIVE, 0, 0⟩], true,
          .returned 1⟩ := by
  decide

/-- C18. Return value: an accepted packet makes the call return `0` or `1`;
it returns `0` exactly when the packet moved its publisher (till then not
started or in progress) to completed and `check_exit_condition` holds of the
table the call leaves, and `1` for every other accepted packet; so after a
return of `0` no record is not started or in progress. -/
theorem return_value (pack : sub_packet_t) (expect : List sub_expect_t) (v : Int)
    (h : (process_incoming_data pack expect).result = .returned v) :
    (v = 0 ∨ v = 1) ∧
    ((expect_at expect (sscanf_u_lu_lu pack.payload).node_id).status =
        RMC_TEST_SUB_NOT_STARTED ∨
      (expect_at expect (sscanf_u_lu_lu pack.payload).node_id).status =
        RMC_TEST_SUB_IN_PROGRESS) ∧
    (v = 0 ↔
      (expect_at (process_incoming_data pack expect).expect
          (sscanf_u_lu_lu pack.payload).node_id).status = RMC_TEST_SUB_COMPLETED ∧
        (check_exit_condition (process_incoming_data pack expect).expect
          (process_incoming_data pack expect).expect.length).1 = 1) ∧
    (v = 0 →
      ∀ i, i < (process_incoming_data pack expect).expect.length →
        (expect_at (process_incoming_data pack expect).expect i).status ≠
            RMC_TEST_SUB_NOT_STARTED ∧
          (expect_at (process_incoming_data pack expect).expect i).status ≠
            RMC_TEST_SUB_IN_PROGRESS) := by
  have hsc := accepted_scanned pack expect v h
  rw [hsc] at h ⊢
  obtain ⟨hn, hst, hcase⟩ := process_scanned_accepted _ _ _ _ _ h
  rcases hcase with ⟨_, htab, hv⟩ | ⟨_, htab, hv⟩
  · rw [htab]
    rcases completion_value_cases
        (expect.set (sscanf_u_lu_lu pack.payload).node_id
          ⟨RMC_TEST_SUB_COMPLETED, (sscanf_u_lu_lu pack.payload).max_expected,
            (sscanf_u_lu_lu pack.payload).current⟩) with ⟨h0, hchk⟩ | ⟨h1, hchk⟩
    · refine ⟨Or.inl (hv.trans h0), hst, ?_, ?_⟩
      · constructor
        · intro _
          exact ⟨by rw [expect_at_set_self _ _ _ hn], hchk⟩
        · intro _; exact hv.trans h0
      · intro _
        exact (check_exit_loop_one_iff _ _).mp hchk
    · have hv1 : v = 1 := hv.trans h1
      refine ⟨Or.inr hv1, hst, ?_, ?_⟩
      · constructor
        · intro hv0; rw [hv1] at hv0; cases hv0
        · intro hh; rw [hchk] at hh; exact absurd hh.2 (by decide)
      · intro hv0; rw [hv1] at hv0; cases hv0
  · rw [htab]
    refine ⟨Or.inr hv, hst, ?_, ?_⟩
    · constructor
      · intro hv0; rw [hv] at hv0; cases hv0
      · intro hh
        rw [expect_at_set_self _ _ _ hn] at hh
        exact absurd hh.1 (fun hx => by cases hx)
    · intro hv0; rw [hv] at hv0; cases hv0

theorem return_value_witness :
    (process_incoming_data (packet_of 3 "2:3:3")
        [⟨RMC_TEST_SUB_INACTIVE, 0, 0⟩, ⟨RMC_TEST_SUB_COMPLETED, 1, 1⟩,
          ⟨RMC_TEST_SUB_IN_PROGRESS, 3, 2⟩]).result = .returned 0 ∧
      (check_exit_condition (process_incoming_data (packet_of 3 "2:3:3")
        [⟨RMC_TEST_SUB_INACTIVE, 0, 0⟩, ⟨RMC_TEST_SUB_COMPLETED, 1, 1⟩,
          ⟨RMC_TEST_SUB_IN_PROGRESS, 3, 2⟩]).expect 3).1 = 1 :=
  ⟨by decide,
    ((return_value (packet_of 3 "2:3:3")
      [⟨RMC_TEST_SUB_INACTIVE, 0, 0⟩, ⟨RMC_TEST_SUB_COMPLETED, 1, 1⟩,
        ⟨RMC_TEST_SUB_IN_PROGRESS, 3, 2⟩] 0 (by decide)).2.2.1.mp rfl).2⟩

/-- C19. Frame: for every table and every accepted packet, the table the call
leaves is the table handed in with the record at the scanned `node_id`
replaced: it has the same size, and the record at every other index is the
same in status, `max_expected` and `max_received`. -/
theorem accepted_frame (pack : sub_packet_t) (expect : List sub_expect_t) (v : Int)
    (h : (process_incoming_data pack expect).result = .returned v) :
    (process_incoming_data pack expect).expect =
        expect.set (sscanf_u_lu_lu pack.payload).node_id
          (expect_at (process_incoming_data pack expect).expect
            (sscanf_u_lu_lu pack.payload).node_id) ∧
    (process_incoming_data pack expect).expect.length = expect.length ∧
    (∀ j, j ≠ (sscanf_u_lu_lu pack.payload).node_id →
      (process_incoming_data pack expect).expect[j]? = expect[j]? ∧
      expect_at (process_incoming_data pack expect).expect j = expect_at expect j) := by
  have hsc := accepted_scanned pack expect v h
  have hlen := process_incoming_data_length pack expect
  refine ⟨?_, hlen, ?_⟩
  · rw [hsc] at h ⊢
    obtain ⟨hn, _, hcase⟩ := process_scanned_accepted _ _ _ _ _ h
    rcases hcase with ⟨_, htab, _⟩ | ⟨_, htab, _⟩ <;>
      rw [htab, expect_at_set_self _ _ _ hn]
  · intro j hj
    refine ⟨?_, process_incoming_data_other pack expect j (Ne.symm hj)⟩
    rw [hsc] at h ⊢
    obtain ⟨_, _, hcase⟩ := process_scanned_accepted _ _ _ _ _ h
    rcases hcase with ⟨_, htab, _⟩ | ⟨_, htab, _⟩ <;>
      rw [htab, List.getElem?_set_ne (Ne.symm hj)]

theorem accepted_frame_witness :
    (process_incoming_data (packet_of 2 "2:2:3")
        [⟨RMC_TEST_SUB_NOT_STARTED, 0, 0⟩, ⟨RMC_TEST_SUB_COMPLETED, 1, 1⟩,
          ⟨RMC_TEST_SUB_IN_PROGRESS, 3, 1⟩]).expect.length = 3 :=
  (accepted_frame (packet_of 2 "2:2:3")
    [⟨RMC_TEST_SUB_NOT_STARTED, 0, 0⟩, ⟨RMC_TEST_SUB_COMPLETED, 1, 1⟩,
      ⟨RMC_TEST_SUB_IN_PROGRESS, 3, 1⟩] 1 (by decide)).2.1

/-! ## Claims: first packet and the counter -/

/-- C17 (amended). First packet of a publisher that is not started: for an
in-range `node_id` whose record is not started and a packet scanned as
`(node_id, pid, declared_max)`, the call returns if and only if `pid = 1`; it
then leaves the record with `max_expected = declared_max`, `max_received = 1`
and status completed when `declared_max = 1`, in progress otherwise.  The
record is set up before the pid is checked: when `pid ≠ 1` the call ends in
`exit(255)` with the "Wanted/Got" diagnostic and the record is in progress
with `max_expected = declared_max` and `max_received = 0`. -/
theorem first_packet (pack : sub_packet_t) (expect : List sub_expect_t)
    (node_id pid declared_max : Nat)
    (hscan : sscanf_u_lu_lu pack.payload = ⟨3, node_id, pid, declared_max⟩)
    (hrange : node_id < expect.length)
    (hst : (expect_at expect node_id).status = RMC_TEST_SUB_NOT_STARTED) :
    ((∃ v, (process_incoming_data pack expect).result = .returned v) ↔ pid = 1) ∧
    (pid = 1 →
      ((process_incoming_data pack expect).result = .returned 0 ∨
        (process_incoming_data pack expect).result = .returned 1) ∧
      expect_at (process_incoming_data pack expect).expect node_id =
        ⟨if declared_max = 1 then RMC_TEST_SUB_COMPLETED else RMC_TEST_SUB_IN_PROGRESS,
          declared_max, 1⟩) ∧
    (pid ≠ 1 →
      (process_incoming_data pack expect).result = .exited 255 .not_consecutive ∧
      expect_at (process_incoming_data pack expect).expect node_id =
        ⟨RMC_TEST_SUB_IN_PROGRESS, declared_max, 0⟩) := by
  rw [process_incoming_data_scanned pack expect _ _ _ hscan,
    process_scanned_not_started _ _ _ _ hrange hst]
  by_cases h1 : pid = 1
  · subst h1
    rw [if_neg (by simp)]
    by_cases h2 : 1 = declared_max
    · subst h2
      rw [if_pos rfl]
      refine ⟨⟨fun _ => rfl, fun _ => ⟨_, rfl⟩⟩, fun _ => ⟨?_, ?_⟩, fun h => absurd rfl h⟩
      · show call_result.returned (completion_value _) = _ ∨
          call_result.returned (completion_value _) = _
        rcases completion_value_cases
            (expect.set node_id ⟨RMC_TEST_SUB_COMPLETED, 1, 1⟩) with ⟨h0, _⟩ | ⟨h1, _⟩
        · rw [h0]; exact Or.inl rfl
        · rw [h1]; exact Or.inr rfl
      · show expect_at (expect.set node_id _) node_id = _
        rw [expect_at_set_self _ _ _ hrange, if_pos rfl]
    · rw [if_neg h2]
      refine ⟨⟨fun _ => rfl, fun _ => ⟨_, rfl⟩⟩, fun _ => ⟨Or.inr rfl, ?_⟩,
        fun h => absurd rfl h⟩
      show expect_at (expect.set node_id _) node_id = _
      rw [expect_at_set_self _ _ _ hrange, if_neg (fun h => h2 h.symm)]
  · rw [if_pos h1]
    refine ⟨⟨fun hv => ?_, fun h => absurd h h1⟩, fun h => absurd h h1,
      fun _ => ⟨rfl, ?_⟩⟩
    · obtain ⟨v, hv⟩ := hv
      cases hv
    · show expect_at (expect.set node_id _) node_id = _
      rw [expect_at_set_self _ _ _ hrange]

theorem first_packet_witness :
    (process_incoming_data (packet_of 1 "2:1:3") (init_expect [0, 0, 1, 0])).result
        = .returned 1 ∧
      expect_at (process_incoming_data (packet_of 1 "2:1:3")
        (init_expect [0, 0, 1, 0])).expect 2 = ⟨RMC_TEST_SUB_IN_PROGRESS, 3, 1⟩ :=
  ⟨by decide,
    ((first_packet (packet_of 1 "2:1:3") (init_expect [0, 0, 1, 0]) 2 1 3
      (by decide) (by decide) (by decide)).2.1 rfl).2⟩

/-- C17, as stated, fails in its last part: with publisher `0` expected and
not started, the payload `0:2:5` (pid `2`) ends the call in `exit(255)`, and
the record is then in progress with the declared maximum stored, not "not
started". -/
theorem first_packet_not_atomic :
    (process_incoming_data (packet_of 2 "0:2:5") (init_expect [1])).result
        = .exited 255 .not_consecutive ∧
      (process_incoming_data (packet_of 2 "0:2:5") (init_expect [1])).expect
        = [⟨RMC_TEST_SUB_IN_PROGRESS, 5, 0⟩] ∧
      (expect_at (process_incoming_data (packet_of 2 "0:2:5") (init_expect [1])).expect
        0).status ≠ RMC_TEST_SUB_NOT_STARTED := by
  decide

/-- C16 (amended). The counter of a started record: when a packet scanned for
an in-range `node_id` whose record is in progress is accepted, `max_received`
after the call is the pid of that packet, which is the old `max_received + 1`
modulo `2^64`; it has grown by one, unless the old value was `2^64 - 1`, in
which case it is `0`. -/
theorem max_received_step (pack : sub_packet_t) (expect : List sub_expect_t)
    (node_id pid declared_max : Nat) (v : Int)
    (hscan : sscanf_u_lu_lu pack.payload = ⟨3, node_id, pid, declared_max⟩)
    (hst : (expect_at expect node_id).status = RMC_TEST_SUB_IN_PROGRESS)
    (hres : (process_incoming_data pack expect).result = .returned v) :
    (expect_at (process_incoming_data pack expect).expect node_id).max_received = pid ∧
    pid = ((expect_at expect node_id).max_received + 1) % UINT64_MOD ∧
    ((expect_at expect node_id).max_received + 1 < UINT64_MOD →
      (expect_at (process_incoming_data pack expect).expect node_id).max_received =
          (expect_at expect node_id).max_received + 1 ∧
        (expect_at expect node_id).max_received ≤
          (expect_at (process_incoming_data pack expect).expect node_id).max_received) ∧
    ((expect_at expect node_id).max_received + 1 = UINT64_MOD →
      (expect_at (process_incoming_data pack expect).expect node_id).max_received = 0) := by
  have hstep := accepted_step pack expect v hres
  rw [hscan] at hstep
  simp only at hstep
  have hb : pid_base expect node_id = (expect_at expect node_id).max_received := by
    simp [pid_base, hst]
  have hnew : (expect_at (process_incoming_data pack expect).expect node_id).max_received
      = pid := by
    rw [process_incoming_data_scanned pack expect _ _ _ hscan] at hres ⊢
    obtain ⟨hn, _, hcase⟩ := process_scanned_accepted _ _ _ _ _ hres
    rcases hcase with ⟨_, htab, _⟩ | ⟨_, htab, _⟩ <;>
      rw [htab, expect_at_set_self _ _ _ hn]
  rw [hb] at hstep
  refine ⟨hnew, hstep.1, ?_, ?_⟩
  · intro hlt
    rw [hnew, hstep.1, Nat.mod_eq_of_lt hlt]
    exact ⟨rfl, Nat.le_succ _⟩
  · intro heq
    rw [hnew, hstep.1, heq, Nat.mod_self]

theorem max_received_step_witness :
    (expect_at (process_incoming_data (packet_of 2 "1:2:5")
        [⟨RMC_TEST_SUB_INACTIVE, 0, 0⟩, ⟨RMC_TEST_SUB_IN_PROGRESS, 5, 1⟩]).expect
      1).max_received = 2 :=
  (max_received_step (packet_of 2 "1:2:5")
    [⟨RMC_TEST_SUB_INACTIVE, 0, 0⟩, ⟨RMC_TEST_SUB_IN_PROGRESS, 5, 1⟩] 1 2 5 1
    (by decide) (by decide) (by decide)).1

/-- C16, as stated, fails when the counter wraps: on a record in progress
with `max_received = 2^64 - 1` (and declared maximum `0`) the payload `0:0:0`
is accepted, and `max_received` goes from `2^64 - 1` down to `0`. -/
theorem max_received_decreases :
    (process_incoming_data (packet_of 0 "0:0:0")
        [⟨RMC_TEST_SUB_IN_PROGRESS, 0, 18446744073709551615⟩]).result = .returned 0 ∧
      (expect_at (process_incoming_data (packet_of 0 "0:0:0")
        [⟨RMC_TEST_SUB_IN_PROGRESS, 0, 18446744073709551615⟩]).expect 0).max_received
        = 0 ∧
      (expect_at (process_incoming_data (packet_of 0 "0:0:0")
        [⟨RMC_TEST_SUB_IN_PROGRESS, 0, 18446744073709551615⟩]).expect 0).max_received <
        (expect_at [⟨RMC_TEST_SUB_IN_PROGRESS, 0, 18446744073709551615⟩] 0).max_received := by
  decide

/-! ## Claims: the declared maximum as a bound -/

/-- Before an accepted packet, the record was not started and the pid is `1`,
or it was in progress, the declared maximum is the stored one and the pid is
the `uint64_t` successor of the stored count. -/
theorem process_scanned_accepted_pre (n c m : Nat) (expect : List sub_expect_t) (v : Int)
    (h : (process_scanned n c m expect).result = .returned v) :
    ((expect_at expect n).status = RMC_TEST_SUB_NOT_STARTED ∧ c = 1) ∨
      ((expect_at expect n).status = RMC_TEST_SUB_IN_PROGRESS ∧
        m = (expect_at expect n).max_expected ∧
        c = ((expect_at expect n).max_received + 1) % UINT64_MOD) := by
  by_cases hn : expect.length ≤ n
  · rw [process_scanned_out_of_range _ _ _ _ hn] at h; cases h
  · have hn1 : n < expect.length := by omega
    cases hst : (expect_at expect n).status with
    | RMC_TEST_SUB_INACTIVE =>
      rw [process_scanned_inactive _ _ _ _ hn1 hst] at h; cases h
    | RMC_TEST_SUB_COMPLETED =>
      rw [process_scanned_completed _ _ _ _ hn1 hst] at h; cases h
    | RMC_TEST_SUB_NOT_STARTED =>
      rw [process_scanned_not_started _ _ _ _ hn1 hst] at h
      by_cases h1 : c = 1
      · exact Or.inl ⟨rfl, h1⟩
      · rw [if_pos h1] at h; cases h
    | RMC_TEST_SUB_IN_PROGRESS =>
      rw [process_scanned_in_progress _ _ _ _ hn1 hst] at h
      by_cases h1 : m = (expect_at expect n).max_expected
      · by_cases h2 : c = ((expect_at expect n).max_received + 1) % UINT64_MOD
        · exact Or.inr ⟨rfl, h1, h2⟩
        · rw [if_neg (by simpa using h1), if_pos h2] at h; cases h
      · rw [if_pos h1] at h; cases h

theorem record_bounded_step (pack : sub_packet_t) (expect : List sub_expect_t) (v : Int)
    (h : (process_incoming_data pack expect).result = .returned v)
    (hinv : ∀ i, record_bounded (expect_at expect i)) :
    ∀ i, record_bounded (expect_at (process_incoming_data pack expect).expect i) := by
  intro i
  by_cases hi : (sscanf_u_lu_lu pack.payload).node_id = i
  · have hcount : (sscanf_u_lu_lu pack.payload).count = 3 := by
      unfold process_incoming_data at h
      simp only at h
      by_contra hc
      rw [if_pos hc] at h; cases h
    have hb := sscanf_bounds pack.payload (sscanf_u_lu_lu pack.payload).node_id
      (sscanf_u_lu_lu pack.payload).current (sscanf_u_lu_lu pack.payload).max_expected
      (by rw [← hcount])
    have hsc := accepted_scanned pack expect v h
    rw [hsc] at h ⊢
    rw [hi] at h hb ⊢
    generalize (sscanf_u_lu_lu pack.payload).current = c at h hb ⊢
    generalize (sscanf_u_lu_lu pack.payload).max_expected = m at h hb ⊢
    obtain ⟨hn, _, hcase⟩ := process_scanned_accepted _ _ _ _ _ h
    have hpre := process_scanned_accepted_pre _ _ _ _ _ h
    have hold := hinv i
    unfold record_bounded at hold ⊢
    rcases hcase with ⟨hcm, htab, _⟩ | ⟨hcm, htab, _⟩
    · rw [htab, expect_at_set_self _ _ _ hn]
      exact ⟨hb.2.2, fun hx _ => (by cases hx), fun _ => hcm, fun hx => (by cases hx)⟩
    · rw [htab, expect_at_set_self _ _ _ hn]
      refine ⟨hb.2.2, fun _ hm0 => ?_, fun hx => (by cases hx), fun _ => ?_⟩
      · have hm0 : m ≠ 0 := hm0
        show c < m
        rcases hpre with ⟨_, hc1⟩ | ⟨hst, hmx, hc⟩
        · omega
        · have h1 := hold.2.1 hst (by rw [← hmx]; exact hm0)
          have h2 : (expect_at expect i).max_received + 1 < UINT64_MOD := by
            have := hold.1; omega
          rw [Nat.mod_eq_of_lt h2] at hc
          omega
      · show 1 ≤ c
        rcases hpre with ⟨_, hc1⟩ | ⟨hst, hmx, hc⟩
        · omega
        · by_cases hm0 : m = 0
          · omega
          · have h1 := hold.2.1 hst (by rw [← hmx]; exact hm0)
            have h2 : (expect_at expect i).max_received + 1 < UINT64_MOD := by
              have := hold.1; omega
            rw [Nat.mod_eq_of_lt h2] at hc
            omega
  · rw [process_incoming_data_other pack expect i hi]
    exact hinv i

theorem record_bounded_feed (packs : List sub_packet_t) :
    ∀ (expect final : List sub_expect_t), feed expect packs = some final →
      (∀ i, record_bounded (expect_at expect i)) →
        ∀ i, record_bounded (expect_at final i) := by
  induction packs with
  | nil =>
    intro expect final hfeed hinv
    simp only [feed, Option.some.injEq] at hfeed
    rw [← hfeed]; exact hinv
  | cons pack rest ih =>
    intro expect final hfeed hinv
    simp only [feed] at hfeed
    split at hfeed
    · rename_i v hres
      exact ih _ final hfeed (record_bounded_step pack expect v hres hinv)
    · cases hfeed

theorem record_bounded_init (node_id_map : List Nat) (i : Nat) :
    record_bounded (expect_at (init_expect node_id_map) i) := by
  unfold expect_at init_expect
  rw [List.getD_eq_getElem?_getD, List.getElem?_map]
  cases node_id_map[i]? with
  | none => exact ⟨by decide, fun h _ => (by cases h), fun h => (by cases h),
      fun h => (by cases h)⟩
  | some m =>
    by_cases hm : m = 0
    · simp only [Option.map_some', Option.getD_some, hm, ne_eq, not_true_eq_false, if_false]
      exact ⟨by decide, fun h _ => (by cases h), fun h => (by cases h),
        fun h => (by cases h)⟩
    · simp only [Option.map_some', Option.getD_some, ne_eq, hm, not_false_eq_true, if_true]
      exact ⟨by decide, fun h _ => (by cases h), fun h => (by cases h),
        fun h => (by cases h)⟩

/-- C15 (amended). Bounded by the declared maximum: in every table reached
from the initial one by calls that all return, a record that is in progress
or completed and whose declared maximum is not `0` has
`max_received ≤ max_expected`; a completed record has
`max_received = max_expected` whatever the maximum; and a record in progress
whose declared maximum is `0` has `max_received ≥ 1`, above `max_expected`. -/
theorem bounded_by_declared_max (node_id_map : List Nat) (packs : List sub_packet_t)
    (final : List sub_expect_t) (i : Nat)
    (hfeed : feed (init_expect node_id_map) packs = some final) :
    (((expect_at final i).status = RMC_TEST_SUB_IN_PROGRESS ∨
        (expect_at final i).status = RMC_TEST_SUB_COMPLETED) →
      (expect_at final i).max_expected ≠ 0 →
        (expect_at final i).max_received ≤ (expect_at final i).max_expected) ∧
    ((expect_at final i).status = RMC_TEST_SUB_COMPLETED →
      (expect_at final i).max_received = (expect_at final i).max_expected) ∧
    ((expect_at final i).status = RMC_TEST_SUB_IN_PROGRESS →
      (expect_at final i).max_expected = 0 →
        1 ≤ (expect_at final i).max_received ∧
          (expect_at final i).max_expected < (expect_at final i).max_received) := by
  have h := record_bounded_feed packs _ final hfeed (record_bounded_init node_id_map) i
  unfold record_bounded at h
  refine ⟨fun hst hm => ?_, h.2.2.1, fun hst hm => ?_⟩
  · rcases hst with hst | hst
    · exact Nat.le_of_lt (h.2.1 hst hm)
    · exact Nat.le_of_eq (h.2.2.1 hst)
  · have := h.2.2.2 hst
    exact ⟨this, by omega⟩

theorem bounded_by_declared_max_witness :
    (expect_at [⟨RMC_TEST_SUB_INACTIVE, 0, 0⟩, ⟨RMC_TEST_SUB_INACTIVE, 0, 0⟩,
        ⟨RMC_TEST_SUB_IN_PROGRESS, 3, 2⟩, ⟨RMC_TEST_SUB_INACTIVE, 0, 0⟩] 2).max_received ≤
      (expect_at [⟨RMC_TEST_SUB_INACTIVE, 0, 0⟩, ⟨RMC_TEST_SUB_INACTIVE, 0, 0⟩,
        ⟨RMC_TEST_SUB_IN_PROGRESS, 3, 2⟩, ⟨RMC_TEST_SUB_INACTIVE, 0, 0⟩] 2).max_expected :=
  (bounded_by_declared_max [0, 0, 1, 0]
    [packet_of 1 "2:1:3", packet_of 2 "2:2:3"]
    [⟨RMC_TEST_SUB_INACTIVE, 0, 0⟩, ⟨RMC_TEST_SUB_INACTIVE, 0, 0⟩,
      ⟨RMC_TEST_SUB_IN_PROGRESS, 3, 2⟩, ⟨RMC_TEST_SUB_INACTIVE, 0, 0⟩] 2
    (by decide)).1 (Or.inl (by decide)) (by decide)

/-- C15, as stated, fails for a declared maximum of `0`: with publisher `0`
expected, the payload `0:1:0` is accepted from the initial table and leaves
the record in progress with `max_received = 1` above `max_expected = 0`. -/
theorem declared_max_zero_unbounded :
    feed (init_expect [1]) [packet_of 1 "0:1:0"] =
        some [⟨RMC_TEST_SUB_IN_PROGRESS, 0, 1⟩] ∧
      (expect_at [⟨RMC_TEST_SUB_IN_PROGRESS, 0, 1⟩] 0).status = RMC_TEST_SUB_IN_PROGRESS ∧
      ¬ (expect_at [⟨RMC_TEST_SUB_IN_PROGRESS, 0, 1⟩] 0).max_received ≤
        (expect_at [⟨RMC_TEST_SUB_IN_PROGRESS, 0, 1⟩] 0).max_expected := by
  decide

/-! ## Claims: `rmc_sub_timeout_process` and invalid arguments -/

/-- The loop, given at least as many iterations as there are acknowledge-ready
packets, calls the write helper once for each of them, in order, leaves none
acknowledge-ready, and does not touch the acknowledgement timeout. -/
theorem timeout_process_loop_spec (fuel : Nat) :
    ∀ c : rmc_sub_context_t, c.sub_ctx.ack_ready.length ≤ fuel →
      (timeout_process_loop fuel c).2 =
          c.sub_ctx.ack_ready.map (fun pack => (pack.1, pack.2.pid)) ∧
        (timeout_process_loop fuel c).1.sub_ctx.ack_ready = [] ∧
        (timeout_process_loop fuel c).1.ack_timeout = c.ack_timeout := by
  induction fuel with
  | zero =>
    intro c hlen
    have hnil : c.sub_ctx.ack_ready = [] := List.length_eq_zero.mp (by omega)
    simp [timeout_process_loop, hnil]
  | succ k ih =>
    intro c hlen
    unfold timeout_process_loop
    cases hready : c.sub_ctx.ack_ready with
    | nil => simp [sub_get_next_acknowledge_ready, hready]
    | cons pack rest =>
      have hnext : sub_get_next_acknowledge_ready c.sub_ctx = some pack := by
        simp [sub_get_next_acknowledge_ready, hready]
      have hrest : (sub_packet_acknowledged c.sub_ctx pack).ack_ready = rest := by
        simp [sub_packet_acknowledged, hready]
      rw [hready] at hlen
      simp only [List.length_cons] at hlen
      have := ih ⟨sub_packet_acknowledged c.sub_ctx pack, c.ack_timeout⟩
        (by rw [hrest]; omega)
      simp only [hnext, List.map_cons]
      rw [hrest] at this
      exact ⟨by rw [this.1], this.2.1, this.2.2⟩

/-- More iterations than there are acknowledge-ready packets change nothing:
the loop has ended by then. -/
theorem timeout_process_loop_fuel (fuel : Nat) :
    ∀ c : rmc_sub_context_t, c.sub_ctx.ack_ready.length ≤ fuel →
      timeout_process_loop fuel c =
        timeout_process_loop c.sub_ctx.ack_ready.length c := by
  induction fuel with
  | zero =>
    intro c hlen
    have h0 : c.sub_ctx.ack_ready.length = 0 := by omega
    rw [h0]
  | succ k ih =>
    intro c hlen
    cases hready : c.sub_ctx.ack_ready with
    | nil =>
      simp [timeout_process_loop, sub_get_next_acknowledge_ready, hready]
    | cons pack rest =>
      have hnext : sub_get_next_acknowledge_ready c.sub_ctx = some pack := by
        simp [sub_get_next_acknowledge_ready, hready]
      have hrest : (sub_packet_acknowledged c.sub_ctx pack).ack_ready = rest := by
        simp [sub_packet_acknowledged, hready]
      rw [hready] at hlen
      simp only [List.length_cons] at hlen ⊢
      have h1 := ih ⟨sub_packet_acknowledged c.sub_ctx pack, c.ack_timeout⟩
        (by rw [hrest]; omega)
      simp only [hrest] at h1
      simp only [timeout_process_loop, hnext]
      rw [h1]

/-- The calls of the write helper that `rmc_sub_timeout_process` makes on a
context that is not null: one for each acknowledge-ready packet, in order;
afterwards no packet is acknowledge-ready. -/
theorem timeout_process_calls (ts : Int) (c : rmc_sub_context_t) :
    (rmc_sub_timeout_process ts (some c)).2.2 =
      c.sub_ctx.ack_ready.map (fun pack => (pack.1, pack.2.pid)) ∧
    ∃ after : rmc_sub_context_t,
      (rmc_sub_timeout_process ts (some c)).2.1 = some after ∧
        after.sub_ctx.ack_ready = [] := by
  have h := timeout_process_loop_spec c.sub_ctx.ack_ready.length c (le_refl _)
  exact ⟨h.1, (timeout_process_loop c.sub_ctx.ack_ready.length c).1, rfl, h.2.1⟩

/-- C13 (amended). No-op of `rmc_sub_timeout_process`: on a context that is
not null and has no acknowledge-ready packet, whatever the time and the
watermarks, the call returns `0`, writes no acknowledgement and leaves the
context as it was; and a call writes no acknowledgement only when no packet
is acknowledge-ready. -/
theorem timeout_process_idle (ts : Int) (c : rmc_sub_context_t) :
    (c.sub_ctx.ack_ready = [] → rmc_sub_timeout_process ts (some c) = (0, some c, [])) ∧
    ((rmc_sub_timeout_process ts (some c)).2.2 = [] → c.sub_ctx.ack_ready = []) := by
  constructor
  · intro hnil
    unfold rmc_sub_timeout_process
    simp [hnil, timeout_process_loop]
  · intro hacks
    have h := (timeout_process_calls ts c).1
    rw [hacks] at h
    exact List.map_eq_nil_iff.mp h.symm

theorem timeout_process_idle_witness :
    rmc_sub_timeout_process 50000 (some ⟨⟨[-1, -1, -1, 0], []⟩, 100000⟩) =
      (0, some ⟨⟨[-1, -1, -1, 0], []⟩, 100000⟩, []) :=
  (timeout_process_idle 50000 ⟨⟨[-1, -1, -1, 0], []⟩, 100000⟩).1 rfl

/-- C13, as stated, fails: the call does not look at the time.  With an
acknowledgement timeout of 100 ms and one packet of publisher `3` received at
`0` and acknowledge-ready, at time `0` the deadline lies 100 ms ahead
(`rmc_sub_timeout_get_next` stores `100000`), yet the call writes the
acknowledgement, takes the packet off the acknowledge-ready packets and clears
the watermark. -/
theorem timeout_process_ignores_deadline :
    rmc_sub_timeout_get_next 0
        (some ⟨⟨[-1, -1, -1, 0], [(3, packet_of 1 "3:1:1")]⟩, 100000⟩) (some 0)
      = (0, some 100000) ∧
    rmc_sub_timeout_process 0
        (some ⟨⟨[-1, -1, -1, 0], [(3, packet_of 1 "3:1:1")]⟩, 100000⟩)
      = (0, some ⟨⟨[-1, -1, -1, -1], []⟩, 100000⟩, [(3, 1)]) := by
  decide

/-- C14. Invalid argument: `rmc_sub_timeout_get_next` returns `EINVAL` when
`ctx` is null or `result` is null, and then the target of `result`, if there
is one, keeps its value; `rmc_sub_timeout_process` returns `EINVAL` when `ctx`
is null and writes no acknowledgement; with arguments that are not null both
return `0`. -/
theorem invalid_argument (now ts old : Int) (c : rmc_sub_context_t) :
    rmc_sub_timeout_get_next now none (some old) = (EINVAL, some old) ∧
    rmc_sub_timeout_get_next now (some c) none = (EINVAL, none) ∧
    rmc_sub_timeout_get_next now none none = (EINVAL, none) ∧
    rmc_sub_timeout_process ts none = (EINVAL, none, []) ∧
    (rmc_sub_timeout_get_next now (some c) (some old)).1 = 0 ∧
    (rmc_sub_timeout_process ts (some c)).1 = 0 ∧
    EINVAL ≠ 0 := by
  refine ⟨rfl, rfl, rfl, rfl, ?_, rfl, by decide⟩
  unfold rmc_sub_timeout_get_next
  simp only
  split_ifs <;> rfl

/-! ## Claims: the wait of `process_events` -/

/-- C20 (amended). Wait timeout of `process_events`: the `int` handed to
`epoll_wait` is `-1` when `timeout_ts` is `-1`; for `timeout_ts` from `0` up
to, and not including, `2147483647000` (so that `timeout_ts / 1000 + 1` is an
`int`) it is `timeout_ts / 1000 + 1`, which is at least `1`, is not `-1`, and
in microseconds exceeds `timeout_ts`. -/
theorem wait_timeout (timeout_ts : Int) :
    (timeout_ts = -1 → process_events_wait_timeout timeout_ts = -1) ∧
    (0 ≤ timeout_ts → timeout_ts < 2147483647000 →
      process_events_wait_timeout timeout_ts = Int.tdiv timeout_ts 1000 + 1 ∧
      process_events_wait_timeout timeout_ts = timeout_ts / 1000 + 1 ∧
      1 ≤ process_events_wait_timeout timeout_ts ∧
      process_events_wait_timeout timeout_ts ≠ -1 ∧
      timeout_ts < process_events_wait_timeout timeout_ts * 1000) := by
  constructor
  · intro h
    subst h
    decide
  · intro h0 hlt
    have hdiv : Int.tdiv timeout_ts 1000 = timeout_ts / 1000 :=
      Int.tdiv_eq_ediv h0 (by decide)
    have hval : process_events_wait_timeout timeout_ts = timeout_ts / 1000 + 1 := by
      unfold process_events_wait_timeout wrap32 INT32_HALF
      rw [if_neg (by omega), hdiv]
      omega
    rw [hdiv, hval]
    refine ⟨rfl, rfl, by omega, by omega, by omega⟩

theorem wait_timeout_witness :
    process_events_wait_timeout 100000 = 101 ∧ process_events_wait_timeout 0 = 1 ∧
      process_events_wait_timeout (-1) = -1 :=
  ⟨((wait_timeout 100000).2 (by decide) (by decide)).1,
    ((wait_timeout 0).2 (by decide) (by decide)).1,
    (wait_timeout (-1)).1 rfl⟩

/-- C20, as stated, fails for large deadlines, where `timeout_ts / 1000 + 1`
is not an `int`: for `timeout_ts = 2147483647000` the value handed to
`epoll_wait` is `-2147483648`, which is not at least `1`; and for
`timeout_ts = 4294967294000` it is `-1` although `timeout_ts` is not `-1`. -/
theorem wait_timeout_overflow :
    process_events_wait_timeout 2147483647000 = -2147483648 ∧
      ¬ (1 ≤ process_events_wait_timeout 2147483647000) ∧
      ¬ (2147483647000 < process_events_wait_timeout 2147483647000 * 1000) ∧
      process_events_wait_timeout 4294967294000 = -1 := by
  decide

end Rmc
